import Mathlib

/-!
Formal model of the `mongoose-paginator` library (src/index.ts).

The library offers three pagination strategies over a Mongoose collection:
page-number, offset and cursor.  We shallowly embed the library: a
collection (`Model`) is a list of documents, a document is an association
list from field names to BSON-like values (`BVal`), and the Mongoose query
chain `find(filter).sort(s).skip(n).limit(l)` is modelled by filtering,
sorting and slicing that list.  JavaScript numeric edge cases that the code
can reach (division by zero producing `Infinity`/`NaN`) are modelled by the
`JSNum` type.  Dates are modelled by their civil components (a bijective
re-coordinatization of the epoch-milliseconds evaluation JavaScript uses);
`Date.prototype.toISOString` and ISO-8601 parsing are implemented on those
components.  ObjectIds are modelled by their 24-hex-digit numeric value.

Presentation options (`projection`, `populate`, `lean`) only change the
shape of returned rows, not which rows are returned nor the pagination
metadata; they are passthroughs to Mongoose and are not modelled.
-/

/-- A JavaScript number that is either an integer, an infinity, or `NaN`.
The paginators divide by the caller's `limit`, which can be `0`, so
`Math.ceil(total / limit)` can produce `Infinity` or `NaN`.  Integer
arithmetic is exact for the magnitudes involved (below `2^53`). -/
inductive JSNum where
  | int (n : Int)
  | posInf
  | negInf
  | nan
deriving DecidableEq, Repr

/-- JavaScript `<` on `JSNum` (`NaN` compares false with everything). -/
def JSNum.ltb : JSNum → JSNum → Bool
  | .int a, .int b => decide (a < b)
  | .int _, .posInf => true
  | .negInf, .int _ => true
  | .negInf, .posInf => true
  | _, _ => false

/-- JavaScript `x + 1` on `JSNum`. -/
def JSNum.addOne : JSNum → JSNum
  | .int n => .int (n + 1)
  | x => x

/-- JavaScript `x - 1` on `JSNum`. -/
def JSNum.subOne : JSNum → JSNum
  | .int n => .int (n - 1)
  | x => x

/-- JavaScript `Math.floor(a / b)` for integer arguments: division by zero
yields `NaN` (for `0/0`) or a signed infinity; otherwise the flooring
integer division. -/
def jsFloorDiv (a b : Int) : JSNum :=
  if b = 0 then
    if a = 0 then .nan else if 0 < a then .posInf else .negInf
  else
    .int (Int.fdiv a b)

/-- JavaScript `Math.ceil(a / b)` for integer arguments: division by zero
yields `NaN` (for `0/0`) or a signed infinity; otherwise the ceiling
integer division. -/
def jsCeilDiv (a b : Int) : JSNum :=
  if b = 0 then
    if a = 0 then .nan else if 0 < a then .posInf else .negInf
  else
    .int (-(Int.fdiv (-a) b))

/-! ### Decimal and hexadecimal digits -/

/-- The decimal digit character for `n` (only used with `n < 10`). -/
def digitChar (n : Nat) : Char :=
  match n with
  | 0 => '0' | 1 => '1' | 2 => '2' | 3 => '3' | 4 => '4'
  | 5 => '5' | 6 => '6' | 7 => '7' | 8 => '8' | 9 => '9'
  | _ => '*'

/-- Numeric value of a decimal digit character. -/
def digitVal (c : Char) : Nat := c.toNat - 48

/-- Lowercase hexadecimal digit character for `n < 16` (as produced by
`ObjectId.prototype.toString`). -/
def hexChar (n : Nat) : Char :=
  match n with
  | 0 => '0' | 1 => '1' | 2 => '2' | 3 => '3' | 4 => '4'
  | 5 => '5' | 6 => '6' | 7 => '7' | 8 => '8' | 9 => '9'
  | 10 => 'a' | 11 => 'b' | 12 => 'c' | 13 => 'd' | 14 => 'e' | 15 => 'f'
  | _ => '*'

/-- Value of a hexadecimal digit character; the BSON ObjectId validator
accepts both cases. -/
def hexVal (c : Char) : Option Nat :=
  if 48 ≤ c.toNat ∧ c.toNat ≤ 57 then some (c.toNat - 48)
  else if 97 ≤ c.toNat ∧ c.toNat ≤ 102 then some (c.toNat - 87)
  else if 65 ≤ c.toNat ∧ c.toNat ≤ 70 then some (c.toNat - 55)
  else none

/-- Big-endian, zero-padded hexadecimal rendering of `n` with `k` digits. -/
def natToHexChars : Nat → Nat → List Char
  | 0, _ => []
  | k + 1, n => natToHexChars k (n / 16) ++ [hexChar (n % 16)]

/-- Accumulating hexadecimal string parser; fails on a non-hex character. -/
def parseHexAux : Nat → List Char → Option Nat
  | acc, [] => some acc
  | acc, c :: cs =>
    match hexVal c with
    | some d => parseHexAux (acc * 16 + d) cs
    | none => none

/-- `new Types.ObjectId(s)` for a string argument: the BSON library accepts
exactly 24-character hexadecimal strings and throws a `BSONError`
otherwise.  Returns the numeric value of the id. -/
def parseObjectId (s : String) : Option Nat :=
  if s.length = 24 then parseHexAux 0 s.data else none

/-- `String(objectId)`: the 24-digit lowercase hexadecimal rendering. -/
def oidString (n : Nat) : String := String.mk (natToHexChars 24 n)

/-! ### Dates and ISO-8601 -/

/-- A JavaScript `Date` instant, modelled by its UTC civil components
(the components `toISOString` renders).  Chronological order is the
lexicographic order on the components. -/
structure JsDate where
  year : Nat
  month : Nat
  day : Nat
  hour : Nat
  minute : Nat
  second : Nat
  millisecond : Nat
deriving DecidableEq, Repr

/-- A `JsDate` whose components are within calendar ranges (and whose year
fits the 4-digit `toISOString` format). -/
def JsDate.valid (d : JsDate) : Prop :=
  d.year < 10000 ∧ 1 ≤ d.month ∧ d.month ≤ 12 ∧ 1 ≤ d.day ∧ d.day ≤ 31 ∧
    d.hour < 24 ∧ d.minute < 60 ∧ d.second < 60 ∧ d.millisecond < 1000

instance (d : JsDate) : Decidable d.valid := by unfold JsDate.valid; infer_instance

/-- Mixed-radix encoding of the components; strictly monotone in the
lexicographic component order for valid dates, i.e. it recovers the
epoch-milliseconds comparison order. -/
def JsDate.enc (d : JsDate) : Int :=
  (((((((d.year * 13 + d.month) * 32 + d.day) * 24 + d.hour) * 60 +
    d.minute) * 60 + d.second) * 1000 + d.millisecond : Nat) : Int)

/-- Two-digit zero-padded decimal rendering. -/
def pad2 (n : Nat) : List Char := [digitChar (n / 10 % 10), digitChar (n % 10)]

/-- Three-digit zero-padded decimal rendering. -/
def pad3 (n : Nat) : List Char :=
  [digitChar (n / 100 % 10), digitChar (n / 10 % 10), digitChar (n % 10)]

/-- Four-digit zero-padded decimal rendering. -/
def pad4 (n : Nat) : List Char :=
  [digitChar (n / 1000 % 10), digitChar (n / 100 % 10),
   digitChar (n / 10 % 10), digitChar (n % 10)]

/-- The character sequence of `Date.prototype.toISOString`:
`YYYY-MM-DDTHH:mm:ss.sssZ`. -/
def toISOChars (d : JsDate) : List Char :=
  pad4 d.year ++ '-' :: pad2 d.month ++ '-' :: pad2 d.day ++
    'T' :: pad2 d.hour ++ ':' :: pad2 d.minute ++ ':' :: pad2 d.second ++
    '.' :: pad3 d.millisecond ++ ['Z']

/-- `Date.prototype.toISOString`. -/
def toISOString (d : JsDate) : String := String.mk (toISOChars d)

/-- Parser for the exact `toISOString` format (the ISO-8601 shape
`Date.parse` accepts for UTC instants). -/
def parseISOChars (cs : List Char) : Option JsDate :=
  match cs with
  | [y1, y2, y3, y4, s1, mo1, mo2, s2, d1, d2, t1, h1, h2, s3,
     mi1, mi2, s4, se1, se2, s5, x1, x2, x3, s6] =>
    if s1 = '-' ∧ s2 = '-' ∧ t1 = 'T' ∧ s3 = ':' ∧ s4 = ':' ∧ s5 = '.' ∧
        s6 = 'Z' ∧
        ([y1, y2, y3, y4, mo1, mo2, d1, d2, h1, h2,
          mi1, mi2, se1, se2, x1, x2, x3].all Char.isDigit) then
      some
        { year := digitVal y1 * 1000 + digitVal y2 * 100 +
            digitVal y3 * 10 + digitVal y4
          month := digitVal mo1 * 10 + digitVal mo2
          day := digitVal d1 * 10 + digitVal d2
          hour := digitVal h1 * 10 + digitVal h2
          minute := digitVal mi1 * 10 + digitVal mi2
          second := digitVal se1 * 10 + digitVal se2
          millisecond := digitVal x1 * 100 + digitVal x2 * 10 + digitVal x3 }
    else none
  | _ => none

/-- ISO-8601 parsing back into an instant. -/
def parseISO (s : String) : Option JsDate := parseISOChars s.data

/-! ### BSON values, documents, filters and sorting -/

/-- The BSON-like field values relevant to the library: ObjectIds, dates,
numbers and strings. -/
inductive BVal where
  | oid (n : Nat)
  | date (d : JsDate)
  | num (x : Int)
  | str (s : String)
deriving DecidableEq, Repr

/-- BSON sort-order type rank (MongoDB orders values of different types by
type: Numbers(3) < String(4) < ObjectId(8) < Date(10); a missing field
sorts lowest, like Null). -/
def BVal.typeRank : BVal → Nat
  | .num _ => 3
  | .str _ => 4
  | .oid _ => 8
  | .date _ => 10

/-- A document: an association list from field names to values (`_id` is an
ordinary field). -/
abbrev Doc := List (String × BVal)

/-- Field lookup (JavaScript property access / MongoDB field path). -/
def Doc.get (d : Doc) (f : String) : Option BVal :=
  match d.find? (fun p => p.1 == f) with
  | some p => some p.2
  | none => none

/-- Sort key of a (possibly missing) field value: BSON type rank, then a
numeric component, then a string component.  Only one of the latter two is
populated for any given type, giving the within-type order. -/
def skeyOf : Option BVal → Nat × Int × String
  | none => (0, 0, "")
  | some (.num x) => (3, x, "")
  | some (.str s) => (4, 0, s)
  | some (.oid n) => (8, (n : Int), "")
  | some (.date d) => (10, d.enc, "")

/-- Strict lexicographic comparison of character lists by code point —
MongoDB's default binary (UTF-8 byte) collation order for strings. -/
def charListLtB : List Char → List Char → Bool
  | [], [] => false
  | [], _ :: _ => true
  | _ :: _, [] => false
  | a :: as, b :: bs =>
    if a.toNat < b.toNat then true
    else if b.toNat < a.toNat then false
    else charListLtB as bs

/-- Strict string comparison in MongoDB's binary collation order. -/
def strLtB (a b : String) : Bool := charListLtB a.data b.data

/-- Strict lexicographic order on sort keys. -/
def tkLt (a b : Nat × Int × String) : Bool :=
  decide (a.1 < b.1) ||
    (a.1 == b.1 &&
      (decide (a.2.1 < b.2.1) ||
        (a.2.1 == b.2.1 && strLtB a.2.2 b.2.2)))

/-- A condition a MongoDB filter places on one field. -/
inductive FieldCond where
  | eq (v : BVal)
  | gt (v : BVal)
  | lt (v : BVal)
deriving DecidableEq, Repr

/-- A MongoDB filter object: an association list from field names to
conditions (insertion-ordered, later assignment to an existing key replaces
in place, as for JavaScript objects). -/
abbrev MongoFilter := List (String × FieldCond)

/-- Whether two values are in the same MongoDB comparison type bracket:
the comparison query operators `$gt`/`$lt` only match values whose BSON
type matches the operand's type. -/
def sameBracket (a b : BVal) : Bool := a.typeRank == b.typeRank

/-- Strict within-type BSON comparison (false across type brackets). -/
def bvalLtB : BVal → BVal → Bool
  | .oid a, .oid b => decide (a < b)
  | .num a, .num b => decide (a < b)
  | .str a, .str b => strLtB a b
  | .date a, .date b => decide (a.enc < b.enc)
  | _, _ => false

/-- Whether a (possibly missing) field value satisfies a condition.
Comparison operators never match a missing field, and only match within
the operand's type bracket. -/
def condMatches (c : FieldCond) (v : Option BVal) : Bool :=
  match c, v with
  | .eq w, some u => u == w
  | .gt w, some u => sameBracket u w && bvalLtB w u
  | .lt w, some u => sameBracket u w && bvalLtB u w
  | _, none => false

/-- Whether a document matches every clause of a filter. -/
def matchesFilter (flt : MongoFilter) (d : Doc) : Bool :=
  flt.all (fun p => condMatches p.2 (Doc.get d p.1))

/-- JavaScript object key assignment `flt[f] = c`: replaces the condition
at an existing key in place, otherwise appends the new key. -/
def MongoFilter.set (flt : MongoFilter) (f : String) (c : FieldCond) :
    MongoFilter :=
  if flt.any (fun p => p.1 == f) then
    flt.map (fun p => if p.1 == f then (f, c) else p)
  else
    flt ++ [(f, c)]

/-- A sort specification: list of (field, direction) entries; direction `1`
is ascending, anything else (the code only produces `-1`) descending. -/
abbrev SortSpec := List (String × Int)

/-- Document comparison for a sort specification: lexicographic over the
sort entries, comparing the named field's sort key per entry (reversed for
a descending entry); documents equal under every entry compare `true`
(MongoDB's sort is not otherwise tie-broken; the model keeps input order
for ties via a stable sort). -/
def docLeB (sc : SortSpec) (a b : Doc) : Bool :=
  match sc with
  | [] => true
  | (f, dir) :: rest =>
    let ka := skeyOf (Doc.get a f)
    let kb := skeyOf (Doc.get b f)
    let x := if dir = 1 then ka else kb
    let y := if dir = 1 then kb else ka
    if tkLt x y then true
    else if tkLt y x then false
    else docLeB rest a b

/-- `query.sort(sc)`: stable sort of the documents by the specification. -/
def sortDocs (sc : SortSpec) (l : List Doc) : List Doc :=
  List.insertionSort (fun a b => docLeB sc a b = true) l

/-- `query.limit(l)`: MongoDB treats limit `0` as "no limit" and a negative
limit like its absolute value (single batch). -/
def applyLimit (limit : Int) (l : List Doc) : List Doc :=
  if limit = 0 then l else l.take limit.natAbs

/-- A Mongoose model handle: the collection's documents. -/
abbrev Model := List Doc

/-- The awaited query chain
`model.find(flt).sort(sc).skip(skip).limit(limit)`: filter, sort, then
slice.  (MongoDB applies skip before limit regardless of chaining order.
A negative skip is rejected by MongoDB; the claims only reach skip ≥ 0,
which is passed here as a `Nat`.) -/
def Model.find (m : Model) (flt : MongoFilter) (sc : SortSpec) (skip : Nat)
    (limit : Int) : List Doc :=
  applyLimit limit ((sortDocs sc (m.filter (matchesFilter flt))).drop skip)

/-- `model.countDocuments(flt)`. -/
def Model.countDocuments (m : Model) (flt : MongoFilter) : Nat :=
  (m.filter (matchesFilter flt)).length

/-! ### The paginator classes -/

/-- The errors a `paginate()` call can reject with: the library's own
`MongoosePaginatorError`, or the `BSONError` thrown by
`new Types.ObjectId(cursor)` on a malformed id string. -/
inductive JsError where
  | mongoosePaginatorError (message : String)
  | bsonInvalidObjectId (input : String)
deriving DecidableEq, Repr

/-- Whether an error is an instance of the library's own error class. -/
def JsError.isMongoosePaginatorError : JsError → Bool
  | .mongoosePaginatorError _ => true
  | .bsonInvalidObjectId _ => false

/-- `IPaginateArgs`: the query options.  `projection`, `populate` and
`lean` are presentation passthroughs (they do not affect which rows are
returned nor the metadata) and are not modelled. -/
structure IPaginateArgs where
  filter : MongoFilter := []
  sort : Option SortSpec := none
deriving DecidableEq, Repr

/-- `IPaginationMeta`: every field optional as in the TypeScript interface;
`none` models an absent (undefined) field and `some none` models an
explicit `null`. -/
structure IPaginationMeta where
  total : Option Nat := none
  lastPage : Option JSNum := none
  currentPage : Option JSNum := none
  perPage : Option Int := none
  prev : Option (Option JSNum) := none
  next : Option (Option JSNum) := none
  nextCursor : Option (Option String) := none
deriving DecidableEq, Repr

/-- `IPaginationResult`. -/
structure IPaginationResult where
  data : List Doc
  meta : IPaginationMeta
deriving DecidableEq, Repr

/-- `BasePaginator`: holds the model handle and the query options. -/
structure BasePaginator where
  args : IPaginateArgs := { filter := [], sort := some [("createdAt", -1)] }
deriving DecidableEq, Repr

/-- `BasePaginator.setArgs`. -/
def BasePaginator.setArgs (p : BasePaginator) (args : IPaginateArgs) :
    BasePaginator :=
  { p with args := args }

/-- `BasePaginator.paginate`: the base class always throws
`MongoosePaginatorError('Method not implemented')`. -/
def BasePaginator.paginate (_p : BasePaginator) (_model : Model) :
    Except JsError IPaginationResult :=
  .error (.mongoosePaginatorError "Method not implemented")

/-- `PageNumberPaginator`: page (default 1), limit (default 10), options. -/
structure PageNumberPaginator where
  page : Int := 1
  limit : Int := 10
  args : IPaginateArgs := { filter := [], sort := some [("createdAt", -1)] }
deriving DecidableEq, Repr

/-- `PageNumberPaginator.getSkip`: `(page - 1) * limit`. -/
def PageNumberPaginator.getSkip (p : PageNumberPaginator) : Int :=
  (p.page - 1) * p.limit

/-- `PageNumberPaginator.setPage`. -/
def PageNumberPaginator.setPage (p : PageNumberPaginator) (page : Int) :
    PageNumberPaginator :=
  { p with page := page }

/-- `PageNumberPaginator.setLimit`. -/
def PageNumberPaginator.setLimit (p : PageNumberPaginator) (limit : Int) :
    PageNumberPaginator :=
  { p with limit := limit }

/-- `PageNumberPaginator.setArgs`. -/
def PageNumberPaginator.setArgs (p : PageNumberPaginator)
    (args : IPaginateArgs) : PageNumberPaginator :=
  { p with args := args }

/-- `PageNumberPaginator.paginate`: find with skip/limit and the sort
(defaulting to `{createdAt: -1}`), count concurrently, and derive the
navigation metadata.  The method contains no validation and no throw. -/
def PageNumberPaginator.paginate (p : PageNumberPaginator) (model : Model) :
    Except JsError IPaginationResult :=
  let skip := p.getSkip
  let sc := p.args.sort.getD [("createdAt", -1)]
  let items := Model.find model p.args.filter sc skip.toNat p.limit
  let total := Model.countDocuments model p.args.filter
  let lastPage := jsCeilDiv (total : Int) p.limit
  let currentPage : JSNum := .int p.page
  .ok
    { data := items
      meta :=
        { total := some total
          lastPage := some lastPage
          currentPage := some currentPage
          perPage := some p.limit
          prev := some (if JSNum.ltb (.int 1) currentPage then
              some currentPage.subOne else none)
          next := some (if JSNum.ltb currentPage lastPage then
              some currentPage.addOne else none) } }

/-- `OffsetPaginator`: raw skip plus limit. -/
structure OffsetPaginator where
  offset : Int
  limit : Int
  args : IPaginateArgs := { filter := [], sort := some [] }
deriving DecidableEq, Repr

/-- The `OffsetPaginator` constructor: throws unless
`offset % limit === 0`.  In JavaScript `offset % 0` is `NaN`, and
`NaN !== 0`, so `limit = 0` always throws; for `limit ≠ 0` the remainder
is zero in JavaScript's truncated division exactly when it is zero in
Lean's Euclidean `%`. -/
def OffsetPaginator.make (offset limit : Int)
    (args : IPaginateArgs := { filter := [], sort := some [] }) :
    Except JsError OffsetPaginator :=
  if limit = 0 ∨ offset % limit ≠ 0 then
    .error (.mongoosePaginatorError "Offset must be a multiple of limit)")
  else
    .ok { offset := offset, limit := limit, args := args }

/-- `OffsetPaginator.setOffset`: plain assignment, no re-validation. -/
def OffsetPaginator.setOffset (p : OffsetPaginator) (offset : Int) :
    OffsetPaginator :=
  { p with offset := offset }

/-- `OffsetPaginator.setLimit`: plain assignment, no re-validation. -/
def OffsetPaginator.setLimit (p : OffsetPaginator) (limit : Int) :
    OffsetPaginator :=
  { p with limit := limit }

/-- `OffsetPaginator.paginate`: like page-number but `skip = offset` and
`currentPage = Math.floor(offset / limit) + 1`; the sort option is passed
through without a default. -/
def OffsetPaginator.paginate (p : OffsetPaginator) (model : Model) :
    Except JsError IPaginationResult :=
  let sc := p.args.sort.getD []
  let items := Model.find model p.args.filter sc p.offset.toNat p.limit
  let total := Model.countDocuments model p.args.filter
  let lastPage := jsCeilDiv (total : Int) p.limit
  let currentPage := (jsFloorDiv p.offset p.limit).addOne
  .ok
    { data := items
      meta :=
        { total := some total
          lastPage := some lastPage
          currentPage := some currentPage
          perPage := some p.limit
          prev := some (if JSNum.ltb (.int 1) currentPage then
              some currentPage.subOne else none)
          next := some (if JSNum.ltb currentPage lastPage then
              some currentPage.addOne else none) } }

/-- `CursorPaginator`: nullable cursor token plus limit. -/
structure CursorPaginator where
  cursor : Option String
  limit : Int
  args : IPaginateArgs := { filter := [], sort := none }
deriving DecidableEq, Repr

/-- `CursorPaginator.setCursor`. -/
def CursorPaginator.setCursor (p : CursorPaginator) (cursor : String) :
    CursorPaginator :=
  { p with cursor := some cursor }

/-- `CursorPaginator.setLimit`. -/
def CursorPaginator.setLimit (p : CursorPaginator) (limit : Int) :
    CursorPaginator :=
  { p with limit := limit }

/-- Lines 197–220 of `CursorPaginator.paginate`: clone the caller's filter
and, if the cursor is truthy (`if (this.cursor)` — `null` and the empty
string are falsy), assign a range clause at the sort field.  For sort field
`_id` the cursor is first parsed by `new Types.ObjectId(cursor)`, which
throws on a malformed id; for any other field the cursor string itself is
the comparison operand. -/
def buildCursorFilter (flt : MongoFilter) (cursor : Option String)
    (sortField : String) (sortOrder : Int) : Except JsError MongoFilter :=
  match cursor with
  | none => .ok flt
  | some c =>
    if c = "" then .ok flt
    else if sortField = "_id" then
      match parseObjectId c with
      | none => .error (.bsonInvalidObjectId c)
      | some n =>
        .ok (flt.set "_id"
          (if sortOrder = 1 then .gt (.oid n) else .lt (.oid n)))
    else
      .ok (flt.set sortField
        (if sortOrder = 1 then .gt (.str c) else .lt (.str c)))

/-- JavaScript `String(v)` for the model's values.  `String(undefined)` is
`"undefined"`.  (For a `Date`, the code reaches `String` only through the
`_id` branch, which the claims never exercise with a date; the ISO
rendering stands in for the locale rendering there.) -/
def jsStringOfBVal : BVal → String
  | .oid n => oidString n
  | .num x => toString x
  | .str s => s
  | .date d => toISOString d

/-- `String(v)` lifted to a possibly missing value. -/
def jsStringOfOpt : Option BVal → String
  | none => "undefined"
  | some v => jsStringOfBVal v

/-- Lines 234–250 of `CursorPaginator.paginate`: derive the next cursor
from the last returned row — `null` if there is none; `String(last._id)`
when the sort field is `_id`; `toISOString()` when the field value is a
`Date`; `String(value)` otherwise. -/
def deriveNextCursor (sortField : String) (items : List Doc) :
    Option String :=
  match items.getLast? with
  | none => none
  | some lastItem =>
    if sortField = "_id" then
      some (jsStringOfOpt (Doc.get lastItem "_id"))
    else
      match Doc.get lastItem sortField with
      | some (.date d) => some (toISOString d)
      | v => some (jsStringOfOpt v)

/-- `CursorPaginator.paginate`: take the first sort entry (defaulting the
whole spec to `{_id: 1}` when absent; when the spec is an empty object the
field is the string `"undefined"` and the order is not `1`, mirroring the
JavaScript coercions), build the augmented filter, run one find (no count),
and derive the next cursor. -/
def CursorPaginator.paginate (p : CursorPaginator) (model : Model) :
    Except JsError IPaginationResult :=
  let sortConfig := p.args.sort.getD [("_id", 1)]
  let sortField := (sortConfig.head?.getD ("undefined", 0)).1
  let sortOrder := (sortConfig.head?.getD ("undefined", 0)).2
  match buildCursorFilter p.args.filter p.cursor sortField sortOrder with
  | .error e => .error e
  | .ok flt =>
    let items := Model.find model flt sortConfig 0 p.limit
    let nextCursor := deriveNextCursor sortField items
    .ok { data := items, meta := { nextCursor := some nextCursor } }

/-- The caller protocol for cursor pagination: call `paginate()`, then
re-invoke with the returned `nextCursor` until it is `null`.  Returns the
concatenation of all returned pages, plus `none` once the `null` cursor
was reached (`some c` reports the pending cursor when the fuel ran out
first). -/
def paginateSeq (model : Model) (args : IPaginateArgs) (limit : Int) :
    Option String → Nat → Except JsError (List Doc × Option String)
  | c, 0 => .ok ([], c)
  | c, fuel + 1 =>
    match CursorPaginator.paginate
        { cursor := c, limit := limit, args := args } model with
    | .error e => .error e
    | .ok r =>
      match r.meta.nextCursor with
      | some (some c2) =>
        match paginateSeq model args limit (some c2) fuel with
        | .error e => .error e
        | .ok (rest, fin) => .ok (r.data ++ rest, fin)
      | _ => .ok (r.data, none)

/-! ### Derived definitions used by the verification -/

/-- One comparison step of `docLeB`: strictly before, strictly after, or
defer to the remaining sort entries. -/
def leStep (x y : Nat × Int × String) (r : Bool) : Bool :=
  if tkLt x y then true else if tkLt y x then false else r

/-- The strict "comes strictly later in the declared sort direction"
comparison between two documents on one sort field. -/
def sLtB (s : String) (o : Int) (a b : Doc) : Bool :=
  if o = 1 then tkLt (skeyOf (Doc.get a s)) (skeyOf (Doc.get b s))
  else tkLt (skeyOf (Doc.get b s)) (skeyOf (Doc.get a s))

/-- "Document `d`'s sort-field value lies strictly beyond the value `v` in
the declared direction" — the semantic content of the range clause the
cursor strategy adds. -/
def beyondB (s : String) (o : Int) (v : BVal) (d : Doc) : Bool :=
  if o = 1 then tkLt (skeyOf (some v)) (skeyOf (Doc.get d s))
  else tkLt (skeyOf (Doc.get d s)) (skeyOf (some v))

/-- The documents of the store matching the caller's filter. -/
def matchedDocs (store : Model) (F : MongoFilter) : List Doc :=
  store.filter (matchesFilter F)

/-- The matching documents in the declared single-field sort order. -/
def sortedMatched (store : Model) (F : MongoFilter) (s : String) (o : Int) :
    List Doc :=
  sortDocs [(s, o)] (matchedDocs store F)

/-- The result shape `CursorPaginator.paginate` produces on a successful
query: the rows plus the derived next cursor. -/
def mkCursorResult (s : String) (items : List Doc) : IPaginationResult :=
  { data := items, meta := { nextCursor := some (deriveNextCursor s items) } }

/-- The sort field the cursor strategy uses: first entry of the sort spec,
defaulting the spec to `{_id: 1}` when absent. -/
def CursorPaginator.sortFieldOf (p : CursorPaginator) : String :=
  ((p.args.sort.getD [("_id", 1)]).head?.getD ("undefined", 0)).1

/-- The sort direction the cursor strategy uses. -/
def CursorPaginator.sortOrderOf (p : CursorPaginator) : Int :=
  ((p.args.sort.getD [("_id", 1)]).head?.getD ("undefined", 0)).2

/-- A field value that is an ObjectId (within the 12-byte range). -/
def isOidVal : Option BVal → Bool
  | some (.oid n) => decide (n < 16 ^ 24)
  | _ => false

/-- A field value that is a nonempty string. -/
def isStrVal : Option BVal → Bool
  | some (.str t) => decide (t ≠ "")
  | _ => false

/-- Claim C1 (amended), as a predicate: the cursor caller protocol, started
from the `null` cursor with enough re-invocations, returns exactly the
sorted matching documents and reaches the `null` cursor; that list is a
permutation of the matching documents (each exactly once) and is sorted in
the declared order. -/
def cursorIterationSpec (store : Model) (F : MongoFilter) (s : String)
    (o : Int) (limit : Int) : Prop :=
  paginateSeq store { filter := F, sort := some [(s, o)] } limit none
      (store.length + 1) =
    .ok (sortedMatched store F s o, none) ∧
  List.Perm (sortedMatched store F s o) (matchedDocs store F) ∧
  (sortedMatched store F s o).Pairwise (fun a b => docLeB [(s, o)] a b = true)

/-- Claim C2 (amended), as a predicate: how `CursorPaginator.paginate`
builds its query filter from the caller's filter and cursor, plus the
`{_id: 1}` default when the sort spec is absent. -/
def cursorFilterSpec (f : MongoFilter) (s : String) (o : Int) (c : String)
    (n : Nat) (lim : Int) (cc : Option String) (st : Model) : Prop :=
  (s = "_id" → parseObjectId c = some n →
    buildCursorFilter f (some c) s o =
      .ok (f.set s
        (if o = 1 then FieldCond.gt (.oid n) else FieldCond.lt (.oid n)))) ∧
  (s ≠ "_id" →
    buildCursorFilter f (some c) s o =
      .ok (f.set s
        (if o = 1 then FieldCond.gt (.str c) else FieldCond.lt (.str c)))) ∧
  buildCursorFilter f (some "") s o = .ok f ∧
  buildCursorFilter f none s o = .ok f ∧
  CursorPaginator.paginate
      { cursor := cc, limit := lim, args := { filter := f, sort := none } }
      st =
    CursorPaginator.paginate
      { cursor := cc, limit := lim,
        args := { filter := f, sort := some [("_id", 1)] } } st

/-- Claim C3, as a predicate on a successful result: `nextCursor` is null
exactly when `data` is empty, and otherwise derives from the last row's
sort-field value — `String(_id)` for the `_id` field, ISO-8601 (parseable
back to the same instant) for dates, the plain string rendering
otherwise. -/
def nextCursorSpec (p : CursorPaginator) (r : IPaginationResult) : Prop :=
  (r.meta.nextCursor = some none ↔ r.data = []) ∧
  (∀ lastd : Doc, r.data.getLast? = some lastd →
    (CursorPaginator.sortFieldOf p = "_id" →
      r.meta.nextCursor = some (some (jsStringOfOpt (Doc.get lastd "_id")))) ∧
    (∀ dt : JsDate, CursorPaginator.sortFieldOf p ≠ "_id" →
      Doc.get lastd (CursorPaginator.sortFieldOf p) = some (.date dt) →
      r.meta.nextCursor = some (some (toISOString dt)) ∧
      (dt.valid → parseISO (toISOString dt) = some dt)) ∧
    (∀ v : BVal, CursorPaginator.sortFieldOf p ≠ "_id" →
      Doc.get lastd (CursorPaginator.sortFieldOf p) = some v →
      (∀ dt : JsDate, v ≠ .date dt) →
      r.meta.nextCursor = some (some (jsStringOfBVal v))))

/-- Claim C8, as a predicate: the page-number strategy succeeds and reports
the documented slice and metadata; `q` is `lastPage` and is characterized
as the ceiling of `total / limit`. -/
def pageNumberSpec (page limit : Int) (args : IPaginateArgs)
    (store : Model) : Prop :=
  ∃ (r : IPaginationResult) (q : Int),
    PageNumberPaginator.paginate
        { page := page, limit := limit, args := args } store = .ok r ∧
    r.data = applyLimit limit
      ((sortDocs (args.sort.getD [("createdAt", -1)])
        (store.filter (matchesFilter args.filter))).drop
          (((page - 1) * limit).toNat)) ∧
    r.meta.total = some (Model.countDocuments store args.filter) ∧
    r.meta.lastPage = some (JSNum.int q) ∧
    (Model.countDocuments store args.filter = 0 → q = 0) ∧
    (q - 1) * limit < (Model.countDocuments store args.filter : Int) ∧
    (Model.countDocuments store args.filter : Int) ≤ q * limit ∧
    r.meta.currentPage = some (JSNum.int page) ∧
    r.meta.perPage = some limit ∧
    (r.meta.prev = some none ↔ page ≤ 1) ∧
    (1 < page → r.meta.prev = some (some (JSNum.int (page - 1)))) ∧
    (r.meta.next = some none ↔ q ≤ page) ∧
    (page < q → r.meta.next = some (some (JSNum.int (page + 1))))

/-- Claim C7, as a predicate: constructor validation of the offset
strategy, and the `currentPage` it reports when construction succeeds. -/
def offsetSpec (offset limit : Int) (args : IPaginateArgs)
    (store : Model) : Prop :=
  (OffsetPaginator.make offset limit args =
      .ok { offset := offset, limit := limit, args := args } ↔
    (limit ≠ 0 ∧ limit ∣ offset)) ∧
  (¬(limit ≠ 0 ∧ limit ∣ offset) →
    OffsetPaginator.make offset limit args =
      .error (.mongoosePaginatorError "Offset must be a multiple of limit)")) ∧
  ((limit ≠ 0 ∧ limit ∣ offset) →
    ∃ r, OffsetPaginator.paginate
        { offset := offset, limit := limit, args := args } store = .ok r ∧
      r.meta.currentPage = some (JSNum.int (Int.fdiv offset limit + 1)))

/-- Decidable equality for `Except` results, used to evaluate the model on
concrete inputs. -/
instance {e a : Type} [DecidableEq e] [DecidableEq a] : DecidableEq (Except e a)
  | .error x, .error y => by
    cases h : decide (x = y) with
    | true => exact isTrue (by rw [of_decide_eq_true h])
    | false => exact isFalse (by intro hc; cases hc; simp at h)
  | .error _, .ok _ => isFalse (by intro hc; cases hc)
  | .ok _, .error _ => isFalse (by intro hc; cases hc)
  | .ok x, .ok y => by
    cases h : decide (x = y) with
    | true => exact isTrue (by rw [of_decide_eq_true h])
    | false => exact isFalse (by intro hc; cases hc; simp at h)

/-- Fixture: a document with an ObjectId `_id` and a `createdAt` date. -/
def dateDoc (n : Nat) (d : JsDate) : Doc :=
  [("_id", BVal.oid n), ("createdAt", BVal.date d)]

/-- Fixture: three date-stamped documents. -/
def dateStore : Model :=
  [dateDoc 1 ⟨2024, 1, 5, 0, 0, 0, 0⟩, dateDoc 2 ⟨2024, 1, 6, 0, 0, 0, 0⟩,
   dateDoc 3 ⟨2024, 1, 7, 0, 0, 0, 0⟩]

/-- Fixture: the paginator of the C3 witness — newest-first by date. -/
def dateCursorPaginator : CursorPaginator :=
  { cursor := none, limit := 2,
    args := { filter := [], sort := some [("createdAt", -1)] } }

/-- Fixture: the result the C3 witness call returns. -/
def dateCursorResult : IPaginationResult :=
  { data := [dateDoc 3 ⟨2024, 1, 7, 0, 0, 0, 0⟩,
             dateDoc 2 ⟨2024, 1, 6, 0, 0, 0, 0⟩],
    meta := { nextCursor := some (some "2024-01-06T00:00:00.000Z") } }

/-! ### Order lemmas for the sort comparator -/

theorem charListLtB_asymm : ∀ {a b : List Char},
    charListLtB a b = true → charListLtB b a = false
  | [], [], h => by simp [charListLtB] at h
  | [], _ :: _, _ => rfl
  | _ :: _, [], h => by simp [charListLtB] at h
  | a :: as, b :: bs, h => by
    simp only [charListLtB] at h ⊢
    by_cases h1 : a.toNat < b.toNat
    · rw [if_neg (by omega : ¬b.toNat < a.toNat), if_pos h1]
    · by_cases h2 : b.toNat < a.toNat
      · rw [if_neg h1, if_pos h2] at h
        exact absurd h Bool.false_ne_true
      · rw [if_neg h1, if_neg h2] at h
        rw [if_neg h2, if_neg h1]
        exact charListLtB_asymm h

theorem charListLtB_trans : ∀ {a b c : List Char},
    charListLtB a b = true → charListLtB b c = true → charListLtB a c = true
  | [], [], _, h1, _ => by simp [charListLtB] at h1
  | [], _ :: _, [], _, h2 => by simp [charListLtB] at h2
  | [], _ :: _, _ :: _, _, _ => rfl
  | _ :: _, [], _, h1, _ => by simp [charListLtB] at h1
  | _ :: _, _ :: _, [], _, h2 => by simp [charListLtB] at h2
  | a :: as, b :: bs, c :: cs, h1, h2 => by
    simp only [charListLtB] at h1 h2 ⊢
    by_cases hab : a.toNat < b.toNat <;> by_cases hbc : b.toNat < c.toNat
    · rw [if_pos (by omega : a.toNat < c.toNat)]
    · by_cases hcb : c.toNat < b.toNat
      · rw [if_neg hbc, if_pos hcb] at h2
        exact absurd h2 Bool.false_ne_true
      · rw [if_pos (by omega : a.toNat < c.toNat)]
    · by_cases hba : b.toNat < a.toNat
      · rw [if_neg hab, if_pos hba] at h1
        exact absurd h1 Bool.false_ne_true
      · rw [if_pos (by omega : a.toNat < c.toNat)]
    · by_cases hba : b.toNat < a.toNat
      · rw [if_neg hab, if_pos hba] at h1
        exact absurd h1 Bool.false_ne_true
      · by_cases hcb : c.toNat < b.toNat
        · rw [if_neg hbc, if_pos hcb] at h2
          exact absurd h2 Bool.false_ne_true
        · rw [if_neg hab, if_neg hba] at h1
          rw [if_neg hbc, if_neg hcb] at h2
          rw [if_neg (by omega : ¬a.toNat < c.toNat),
            if_neg (by omega : ¬c.toNat < a.toNat)]
          exact charListLtB_trans h1 h2

theorem charListLtB_eq_of_not : ∀ {a b : List Char},
    charListLtB a b = false → charListLtB b a = false → a = b
  | [], [], _, _ => rfl
  | [], _ :: _, h1, _ => by simp [charListLtB] at h1
  | _ :: _, [], _, h2 => by simp [charListLtB] at h2
  | a :: as, b :: bs, h1, h2 => by
    simp only [charListLtB] at h1 h2
    by_cases hab : a.toNat < b.toNat
    · rw [if_pos hab] at h1
      exact absurd h1.symm Bool.false_ne_true
    · by_cases hba : b.toNat < a.toNat
      · rw [if_pos hba] at h2
        exact absurd h2.symm Bool.false_ne_true
      · have hn : a.toNat = b.toNat := by omega
        have hch : a = b := Char.ext (UInt32.toNat.inj hn)
        rw [if_neg hab, if_neg hba] at h1
        rw [if_neg hba, if_neg hab] at h2
        rw [hch, charListLtB_eq_of_not h1 h2]

theorem strLtB_asymmetric {a b : String} (h : strLtB a b = true) :
    strLtB b a = false := charListLtB_asymm h

theorem strLtB_transitive {a b c : String} (h1 : strLtB a b = true)
    (h2 : strLtB b c = true) : strLtB a c = true :=
  charListLtB_trans h1 h2

theorem strLtB_eq_of_not {a b : String} (h1 : strLtB a b = false)
    (h2 : strLtB b a = false) : a = b :=
  String.ext (charListLtB_eq_of_not h1 h2)

theorem strLtB_irreflexive (a : String) : strLtB a a = false := by
  cases h : strLtB a a with
  | false => rfl
  | true => exact h ▸ strLtB_asymmetric h

theorem tkLt_iff (a b : Nat × Int × String) :
    tkLt a b = true ↔
      a.1 < b.1 ∨ (a.1 = b.1 ∧
        (a.2.1 < b.2.1 ∨ (a.2.1 = b.2.1 ∧ strLtB a.2.2 b.2.2 = true))) := by
  simp [tkLt, Bool.or_eq_true, Bool.and_eq_true, decide_eq_true_iff]

theorem tkLt_irrefl (a : Nat × Int × String) : tkLt a a = false := by
  rw [Bool.eq_false_iff]
  intro h
  rcases (tkLt_iff a a).1 h with h1 | ⟨_, h2 | ⟨_, h3⟩⟩
  · exact lt_irrefl _ h1
  · exact lt_irrefl _ h2
  · exact Bool.false_ne_true (strLtB_irreflexive _ ▸ h3)

theorem tkLt_asymm {a b : Nat × Int × String} (h : tkLt a b = true) :
    tkLt b a = false := by
  rw [Bool.eq_false_iff]
  intro hr
  rcases (tkLt_iff a b).1 h with h1 | ⟨e1, h2 | ⟨e2, h3⟩⟩ <;>
      rcases (tkLt_iff b a).1 hr with g1 | ⟨f1, g2 | ⟨f2, g3⟩⟩ <;>
    first
      | omega
      | exact Bool.false_ne_true ((strLtB_asymmetric h3).symm.trans g3)

theorem tkLt_trans {a b c : Nat × Int × String} (h : tkLt a b = true)
    (g : tkLt b c = true) : tkLt a c = true := by
  apply (tkLt_iff a c).2
  rcases (tkLt_iff a b).1 h with h1 | ⟨e1, h2 | ⟨e2, h3⟩⟩ <;>
      rcases (tkLt_iff b c).1 g with g1 | ⟨f1, g2 | ⟨f2, g3⟩⟩ <;>
    first
      | (left; omega)
      | (right; exact ⟨by omega, Or.inl (by omega)⟩)
      | (right; exact ⟨by omega, Or.inr ⟨by omega, strLtB_transitive h3 g3⟩⟩)

theorem tkLt_eq_of_not {a b : Nat × Int × String} (hab : tkLt a b = false)
    (hba : tkLt b a = false) : a = b := by
  obtain ⟨a1, a2, a3⟩ := a
  obtain ⟨b1, b2, b3⟩ := b
  have H1 : ¬ (a1 < b1 ∨ (a1 = b1 ∧
      (a2 < b2 ∨ (a2 = b2 ∧ strLtB a3 b3 = true)))) := by
    intro hc
    rw [(tkLt_iff (a1, a2, a3) (b1, b2, b3)).2 hc] at hab
    simp at hab
  have H2 : ¬ (b1 < a1 ∨ (b1 = a1 ∧
      (b2 < a2 ∨ (b2 = a2 ∧ strLtB b3 a3 = true)))) := by
    intro hc
    rw [(tkLt_iff (b1, b2, b3) (a1, a2, a3)).2 hc] at hba
    simp at hba
  push_neg at H1 H2
  have e1 : a1 = b1 := by
    have := H1.1
    have := H2.1
    omega
  have e2 : a2 = b2 := by
    have := (H1.2 e1).1
    have := (H2.2 e1.symm).1
    omega
  have e3 : a3 = b3 :=
    strLtB_eq_of_not
      (Bool.not_eq_true _ ▸ (H1.2 e1).2 e2)
      (Bool.not_eq_true _ ▸ (H2.2 e1.symm).2 e2.symm)
  rw [e1, e2, e3]

theorem leStep_iff (x y : Nat × Int × String) (r : Bool) :
    leStep x y r = true ↔ (tkLt x y = true ∨ (x = y ∧ r = true)) := by
  unfold leStep
  by_cases h1 : tkLt x y = true
  · simp [h1]
  · have h1f : tkLt x y = false := Bool.not_eq_true _ ▸ h1
    by_cases h2 : tkLt y x = true
    · have hne : x ≠ y := by
        rintro rfl
        rw [tkLt_irrefl] at h2
        exact Bool.false_ne_true h2
      simp [h1f, h2, hne]
    · have h2f : tkLt y x = false := Bool.not_eq_true _ ▸ h2
      have hxy : x = y := tkLt_eq_of_not h1f h2f
      subst hxy
      simp [tkLt_irrefl]

theorem leStep_total {x y : Nat × Int × String} {r1 r2 : Bool}
    (h : r1 = true ∨ r2 = true) :
    leStep x y r1 = true ∨ leStep y x r2 = true := by
  by_cases h1 : tkLt x y = true
  · exact Or.inl ((leStep_iff _ _ _).2 (Or.inl h1))
  · by_cases h2 : tkLt y x = true
    · exact Or.inr ((leStep_iff _ _ _).2 (Or.inl h2))
    · have hxy : x = y :=
        tkLt_eq_of_not (Bool.not_eq_true _ ▸ h1) (Bool.not_eq_true _ ▸ h2)
      rcases h with h | h
      · exact Or.inl ((leStep_iff _ _ _).2 (Or.inr ⟨hxy, h⟩))
      · exact Or.inr ((leStep_iff _ _ _).2 (Or.inr ⟨hxy.symm, h⟩))

theorem leStep_trans {x y z : Nat × Int × String} {r1 r2 r3 : Bool}
    (h1 : leStep x y r1 = true) (h2 : leStep y z r2 = true)
    (hr : r1 = true → r2 = true → r3 = true) : leStep x z r3 = true := by
  apply (leStep_iff _ _ _).2
  rcases (leStep_iff _ _ _).1 h1 with ha | ⟨ea, ra⟩ <;>
    rcases (leStep_iff _ _ _).1 h2 with hb | ⟨eb, rb⟩
  · exact Or.inl (tkLt_trans ha hb)
  · exact Or.inl (eb ▸ ha)
  · exact Or.inl (ea ▸ hb)
  · exact Or.inr ⟨ea.trans eb, hr ra rb⟩

theorem leStep_base_iff (x y : Nat × Int × String) :
    leStep x y true = true ↔ tkLt y x = false := by
  rw [leStep_iff]
  constructor
  · rintro (h | ⟨rfl, _⟩)
    · exact tkLt_asymm h
    · exact tkLt_irrefl _
  · intro h
    by_cases h2 : tkLt x y = true
    · exact Or.inl h2
    · exact Or.inr ⟨tkLt_eq_of_not (Bool.not_eq_true _ ▸ h2) h, rfl⟩

theorem docLeB_cons_eq (f : String) (dir : Int) (rest : SortSpec)
    (a b : Doc) :
    docLeB ((f, dir) :: rest) a b =
      leStep (if dir = 1 then skeyOf (Doc.get a f) else skeyOf (Doc.get b f))
        (if dir = 1 then skeyOf (Doc.get b f) else skeyOf (Doc.get a f))
        (docLeB rest a b) := rfl

theorem docLeB_cons_asc {f : String} {dir : Int} (hdir : dir = 1)
    (rest : SortSpec) (a b : Doc) :
    docLeB ((f, dir) :: rest) a b =
      leStep (skeyOf (Doc.get a f)) (skeyOf (Doc.get b f))
        (docLeB rest a b) := by
  rw [docLeB_cons_eq, if_pos hdir, if_pos hdir]

theorem docLeB_cons_desc {f : String} {dir : Int} (hdir : ¬dir = 1)
    (rest : SortSpec) (a b : Doc) :
    docLeB ((f, dir) :: rest) a b =
      leStep (skeyOf (Doc.get b f)) (skeyOf (Doc.get a f))
        (docLeB rest a b) := by
  rw [docLeB_cons_eq, if_neg hdir, if_neg hdir]

theorem docLeB_total : ∀ (sc : SortSpec) (a b : Doc),
    docLeB sc a b = true ∨ docLeB sc b a = true
  | [], _, _ => Or.inl rfl
  | (f, dir) :: rest, a, b => by
    by_cases hdir : dir = 1
    · rw [docLeB_cons_asc hdir, docLeB_cons_asc hdir]
      exact leStep_total (docLeB_total rest a b)
    · rw [docLeB_cons_desc hdir, docLeB_cons_desc hdir]
      exact leStep_total (docLeB_total rest a b).symm |>.symm
  termination_by sc => sc.length

theorem docLeB_trans : ∀ (sc : SortSpec) (a b c : Doc),
    docLeB sc a b = true → docLeB sc b c = true → docLeB sc a c = true
  | [], _, _, _, _, _ => rfl
  | (f, dir) :: rest, a, b, c, hab, hbc => by
    by_cases hdir : dir = 1
    · rw [docLeB_cons_asc hdir] at hab hbc ⊢
      exact leStep_trans hab hbc (docLeB_trans rest a b c)
    · rw [docLeB_cons_desc hdir] at hab hbc ⊢
      exact leStep_trans hbc hab (fun h2 h1 => docLeB_trans rest a b c h1 h2)
  termination_by sc => sc.length

theorem sLtB_asymm {s : String} {o : Int} {a b : Doc}
    (h : sLtB s o a b = true) : sLtB s o b a = false := by
  unfold sLtB at *
  by_cases hdir : o = 1
  · rw [if_pos hdir] at h ⊢
    exact tkLt_asymm h
  · rw [if_neg hdir] at h ⊢
    exact tkLt_asymm h

theorem sLtB_trans {s : String} {o : Int} {a b c : Doc}
    (h : sLtB s o a b = true) (g : sLtB s o b c = true) :
    sLtB s o a c = true := by
  unfold sLtB at *
  by_cases hdir : o = 1
  · rw [if_pos hdir] at h g ⊢
    exact tkLt_trans h g
  · rw [if_neg hdir] at h g ⊢
    exact tkLt_trans g h

theorem docLeB_single (s : String) (o : Int) (a b : Doc) :
    docLeB [(s, o)] a b = true ↔ sLtB s o b a = false := by
  unfold sLtB
  by_cases hdir : o = 1
  · rw [show ([(s, o)] : SortSpec) = (s, o) :: [] from rfl,
      docLeB_cons_asc hdir, if_pos hdir]
    exact leStep_base_iff _ _
  · rw [show ([(s, o)] : SortSpec) = (s, o) :: [] from rfl,
      docLeB_cons_desc hdir, if_neg hdir]
    exact leStep_base_iff _ _

/-! ### Sorting and list infrastructure -/

theorem sortDocs_perm (sc : SortSpec) (l : List Doc) :
    List.Perm (sortDocs sc l) l :=
  List.perm_insertionSort _ l

theorem sortDocs_sorted (sc : SortSpec) (l : List Doc) :
    (sortDocs sc l).Pairwise (fun a b => docLeB sc a b = true) := by
  have htot : IsTotal Doc (fun a b => docLeB sc a b = true) :=
    ⟨docLeB_total sc⟩
  have htrans : IsTrans Doc (fun a b => docLeB sc a b = true) :=
    ⟨docLeB_trans sc⟩
  exact List.sorted_insertionSort _ l

/-- On a list pairwise-distinct under `fn`, `fn` is injective on members. -/
theorem pairwise_ne_inj {α β : Type} (fn : α → β) :
    ∀ {l : List α}, l.Pairwise (fun x y => fn x ≠ fn y) →
      ∀ {a b : α}, a ∈ l → b ∈ l → fn a = fn b → a = b
  | [], _, _, _, ha, _, _ => absurd ha (List.not_mem_nil _)
  | x :: t, hp, a, b, ha, hb, hf => by
    rcases List.pairwise_cons.1 hp with ⟨hx, ht⟩
    rcases List.mem_cons.1 ha with rfl | ha2 <;>
      rcases List.mem_cons.1 hb with rfl | hb2
    · rfl
    · exact absurd hf (hx b hb2)
    · exact absurd hf.symm (hx a ha2)
    · exact pairwise_ne_inj fn ht ha2 hb2 hf

/-- Paging step on a strictly sorted list: filtering for elements strictly
after the last element of `take k` yields exactly `drop k`. -/
theorem filter_lt_take_drop {α : Type} (ltB : α → α → Bool)
    (asymm : ∀ a b, ltB a b = true → ltB b a = false) :
    ∀ (R : List α) (k : Nat) (w : α), 1 ≤ k →
      R.Pairwise (fun a b => ltB a b = true) →
      (R.take k).getLast? = some w →
      R.filter (fun d => ltB w d) = R.drop k
  | [], k, w, _, _, hlast => by simp at hlast
  | a :: R0, k, w, hk, hp, hlast => by
    have irrefl : ∀ c : α, ltB c c = false := by
      intro c
      cases hb : ltB c c with
      | false => rfl
      | true => exact hb ▸ asymm c c hb
    obtain ⟨k0, rfl⟩ : ∃ k0, k = k0 + 1 := ⟨k - 1, by omega⟩
    rw [List.take_succ_cons] at hlast
    rcases List.pairwise_cons.1 hp with ⟨ha, hp0⟩
    by_cases h0 : R0.take k0 = []
    · rw [h0] at hlast
      simp only [List.getLast?_singleton, Option.some.injEq] at hlast
      subst hlast
      rcases List.take_eq_nil_iff.1 h0 with rfl | rfl
      · simp only [List.drop_succ_cons, List.drop_zero]
        have hstep : List.filter (fun d => ltB a d) (a :: R0) =
            List.filter (fun d => ltB a d) R0 := by
          simp [List.filter_cons, irrefl a]
        rw [hstep]
        exact List.filter_eq_self.2 ha
      · simp [irrefl a]
    · have hk0 : 1 ≤ k0 := by
        rcases Nat.eq_zero_or_pos k0 with rfl | h
        · simp at h0
        · exact h
      obtain ⟨b, t, hbt⟩ := List.exists_cons_of_ne_nil h0
      rw [hbt, List.getLast?_cons_cons, ← hbt] at hlast
      have hwmem : w ∈ R0 :=
        List.take_subset k0 R0
          (List.mem_of_mem_getLast? (Option.mem_def.2 hlast))
      have hwa : ltB w a = false := asymm a w (ha w hwmem)
      have hstep : List.filter (fun d => ltB w d) (a :: R0) =
          List.filter (fun d => ltB w d) R0 := by
        simp [List.filter_cons, hwa]
      rw [List.drop_succ_cons, hstep]
      exact filter_lt_take_drop ltB asymm R0 k0 w hk0 hp0 hlast

/-! ### Round-trip lemmas for cursor encodings -/

theorem natToHexChars_length : ∀ (k n : Nat), (natToHexChars k n).length = k
  | 0, _ => rfl
  | k + 1, n => by
    simp [natToHexChars, natToHexChars_length k (n / 16)]

theorem parseHexAux_append : ∀ (xs ys : List Char) (acc : Nat),
    parseHexAux acc (xs ++ ys) =
      match parseHexAux acc xs with
      | some a => parseHexAux a ys
      | none => none
  | [], _, _ => rfl
  | c :: xs, ys, acc => by
    simp only [List.cons_append, parseHexAux]
    cases hexVal c
    · rfl
    · exact parseHexAux_append xs ys _

theorem hexVal_hexChar : ∀ m : Nat, m < 16 → hexVal (hexChar m) = some m := by
  decide

theorem parseHexAux_natToHexChars :
    ∀ (k n acc : Nat), n < 16 ^ k →
      parseHexAux acc (natToHexChars k n) = some (acc * 16 ^ k + n)
  | 0, n, acc, h => by
    have hn : n = 0 := by
      have : (16 : Nat) ^ 0 = 1 := pow_zero 16
      omega
    subst hn
    simp [natToHexChars, parseHexAux]
  | k + 1, n, acc, h => by
    rw [natToHexChars, parseHexAux_append]
    have hdiv : n / 16 < 16 ^ k := by
      have h16 : (16 : Nat) ^ (k + 1) = 16 ^ k * 16 := pow_succ 16 k
      exact (Nat.div_lt_iff_lt_mul (by norm_num)).2 (h16 ▸ h)
    rw [parseHexAux_natToHexChars k (n / 16) acc hdiv]
    simp only [parseHexAux, hexVal_hexChar (n % 16) (Nat.mod_lt _ (by norm_num))]
    congr 1
    rw [pow_succ]
    have hsplit : (acc * 16 ^ k + n / 16) * 16 + n % 16 =
        acc * (16 ^ k * 16) + (n / 16 * 16 + n % 16) := by ring
    rw [hsplit]
    congr 1
    omega

/-- `new Types.ObjectId(String(objectId))` recovers the same id. -/
theorem parseObjectId_oidString (n : Nat) (h : n < 16 ^ 24) :
    parseObjectId (oidString n) = some n := by
  unfold parseObjectId oidString
  have hlen : (String.mk (natToHexChars 24 n)).length = 24 := by
    show (natToHexChars 24 n).length = 24
    exact natToHexChars_length 24 n
  rw [if_pos hlen]
  show parseHexAux 0 (natToHexChars 24 n) = some n
  rw [parseHexAux_natToHexChars 24 n 0 h]
  simp

theorem digitChar_mod_isDigit (m : Nat) :
    (digitChar (m % 10)).isDigit = true := by
  have h : m % 10 < 10 := Nat.mod_lt _ (by norm_num)
  revert h
  generalize m % 10 = r
  revert r
  decide

theorem digitVal_digitChar_mod (m : Nat) :
    digitVal (digitChar (m % 10)) = m % 10 := by
  have h : m % 10 < 10 := Nat.mod_lt _ (by norm_num)
  revert h
  generalize m % 10 = r
  revert r
  decide

/-- ISO-8601 round-trip: parsing the `toISOString` rendering of a valid
date recovers the same instant. -/
theorem parseISO_toISOString (d : JsDate) (h : d.valid) :
    parseISO (toISOString d) = some d := by
  obtain ⟨y, mo, dy, hh, mi, se, ms⟩ := d
  obtain ⟨h1, h2, h3, h4, h5, h6, h7, h8, h9⟩ := h
  dsimp only at h1 h2 h3 h4 h5 h6 h7 h8 h9
  show parseISOChars (toISOChars ⟨y, mo, dy, hh, mi, se, ms⟩) = _
  simp only [toISOChars, pad4, pad3, pad2, List.cons_append, List.nil_append]
  simp only [parseISOChars, List.all_cons, List.all_nil,
    digitChar_mod_isDigit, Bool.and_true, Bool.and_self, and_true, true_and,
    if_pos, and_self, Bool.true_and]
  simp only [Option.some.injEq, JsDate.mk.injEq, digitVal_digitChar_mod]
  refine ⟨?_, ?_, ?_, ?_, ?_, ?_, ?_⟩ <;> omega

/-! ### Cursor iteration machinery -/

theorem applyLimit_nil (limit : Int) : applyLimit limit [] = [] := by
  unfold applyLimit
  by_cases h : limit = 0 <;> simp [h]

theorem applyLimit_eq_take (limit : Int) (l : List Doc) (hne : l ≠ []) :
    ∃ k, 1 ≤ k ∧ applyLimit limit l = l.take k := by
  by_cases h : limit = 0
  · refine ⟨l.length, ?_, ?_⟩
    · cases l
      · exact absurd rfl hne
      · simp
    · simp [applyLimit, h]
  · exact ⟨limit.natAbs, Int.natAbs_pos.2 h, by simp [applyLimit, h]⟩

theorem MongoFilter.set_of_not_mem {flt : MongoFilter} {s : String}
    (h : ∀ p ∈ flt, p.1 ≠ s) (c : FieldCond) :
    flt.set s c = flt ++ [(s, c)] := by
  unfold MongoFilter.set
  rw [if_neg]
  intro hc
  obtain ⟨p, hp, hpe⟩ := List.any_eq_true.1 hc
  exact h p hp (by simpa using hpe)

theorem matchesFilter_append (f1 f2 : MongoFilter) (d : Doc) :
    matchesFilter (f1 ++ f2) d = (matchesFilter f1 d && matchesFilter f2 d) := by
  simp [matchesFilter, List.all_append]

/-- Filtering the store by the caller's filter plus one extra clause at a
field the caller's filter does not mention. -/
theorem filter_set_decompose (store : Model) (F : MongoFilter) (s : String)
    (hFs : ∀ p ∈ F, p.1 ≠ s) (c : FieldCond) :
    store.filter (matchesFilter (F.set s c)) =
      (store.filter (matchesFilter F)).filter
        (fun d => condMatches c (Doc.get d s)) := by
  rw [MongoFilter.set_of_not_mem hFs, List.filter_filter]
  apply List.filter_congr
  intro d _
  rw [matchesFilter_append]
  have hsingle : matchesFilter [(s, c)] d = condMatches c (Doc.get d s) := by
    simp [matchesFilter]
  rw [hsingle, Bool.and_comm]

/-- Main loop invariant for the cursor strategy: starting from a cursor
that encodes a known sort-field value (or from `null`), the caller protocol
visits exactly the remaining sorted matching documents and terminates with
the `null` cursor, provided the sort-field values behave like their cursor
encodings (hypotheses `hbuild`/`hclause`/`hderive`/`hinj`/`hsome`, which
hold for `_id` values and for nonempty string values), the caller's filter
has no clause on the sort field, and the matching documents have pairwise
distinct sort-field values. -/
theorem paginateSeq_exhausts_aux
    (store : Model) (F : MongoFilter) (s : String) (o : Int)
    (good : Option BVal → Prop)
    (enc : BVal → String)
    (hbuild : ∀ v : BVal, good (some v) →
      buildCursorFilter F (some (enc v)) s o =
        .ok (F.set s (if o = 1 then .gt v else .lt v)))
    (hclause : ∀ (v : BVal) (u : Option BVal), good (some v) → good u →
      condMatches (if o = 1 then FieldCond.gt v else FieldCond.lt v) u =
        (if o = 1 then tkLt (skeyOf (some v)) (skeyOf u)
         else tkLt (skeyOf u) (skeyOf (some v))))
    (hderive : ∀ (l : List Doc) (d : Doc) (v : BVal), l.getLast? = some d →
      Doc.get d s = some v → good (some v) →
      deriveNextCursor s l = some (enc v))
    (hinj : ∀ u w : Option BVal, good u → good w → skeyOf u = skeyOf w →
      u = w)
    (hsome : ∀ u : Option BVal, good u → ∃ v : BVal, u = some v)
    (hFs : ∀ p ∈ F, p.1 ≠ s)
    (hgood : ∀ d ∈ store, matchesFilter F d = true → good (Doc.get d s))
    (hdist : (matchedDocs store F).Pairwise
      (fun a b => Doc.get a s ≠ Doc.get b s))
    (limit : Int) :
    ∀ (fuel : Nat) (c : Option String) (R : List Doc),
      R.length < fuel →
      ((c = none ∧ R = sortedMatched store F s o) ∨
        (∃ v : BVal, good (some v) ∧ c = some (enc v) ∧
          R = (sortedMatched store F s o).filter (beyondB s o v))) →
      paginateSeq store { filter := F, sort := some [(s, o)] } limit c fuel =
        .ok (R, none) := by
  have hMgood : ∀ d ∈ matchedDocs store F, good (Doc.get d s) := by
    intro d hd
    obtain ⟨hmem, hmatch⟩ := List.mem_filter.1 hd
    exact hgood d hmem hmatch
  have hLperm : List.Perm (sortedMatched store F s o) (matchedDocs store F) :=
    sortDocs_perm _ _
  have hLgood : ∀ d ∈ sortedMatched store F s o, good (Doc.get d s) :=
    fun d hd => hMgood d (hLperm.mem_iff.1 hd)
  have hLsorted : (sortedMatched store F s o).Pairwise
      (fun a b => docLeB [(s, o)] a b = true) := sortDocs_sorted _ _
  have hLne : (sortedMatched store F s o).Pairwise
      (fun a b => Doc.get a s ≠ Doc.get b s) :=
    hdist.perm hLperm.symm (fun h => Ne.symm h)
  have keyeq_of_not : ∀ a b : Doc, good (Doc.get a s) → good (Doc.get b s) →
      sLtB s o a b = false → sLtB s o b a = false →
      Doc.get a s = Doc.get b s := by
    intro a b hga hgb hab hba
    unfold sLtB at hab hba
    by_cases hdir : o = 1
    · rw [if_pos hdir] at hab hba
      exact hinj _ _ hga hgb (tkLt_eq_of_not hab hba)
    · rw [if_neg hdir] at hab hba
      exact hinj _ _ hga hgb (tkLt_eq_of_not hba hab)
  have hLstrict : (sortedMatched store F s o).Pairwise
      (fun a b => sLtB s o a b = true) := by
    refine (hLsorted.and hLne).imp_of_mem ?_
    intro a b ha hb hh
    obtain ⟨hle, hne⟩ := hh
    have hba : sLtB s o b a = false := (docLeB_single s o a b).1 hle
    cases hab : sLtB s o a b with
    | true => rfl
    | false =>
      exact absurd (keyeq_of_not a b (hLgood a ha) (hLgood b hb) hab hba) hne
  have sort_filter : ∀ q : Doc → Bool,
      sortDocs [(s, o)] ((matchedDocs store F).filter q) =
        (sortedMatched store F s o).filter q := by
    intro q
    have hperm : List.Perm
        (sortDocs [(s, o)] ((matchedDocs store F).filter q))
        ((sortedMatched store F s o).filter q) :=
      (sortDocs_perm _ _).trans (hLperm.filter q).symm
    refine List.Perm.eq_of_sorted ?_ (sortDocs_sorted _ _)
      (List.Pairwise.sublist (List.filter_sublist _) hLsorted) hperm
    intro a b ha hb hab hba
    have haM : a ∈ matchedDocs store F :=
      (List.mem_filter.1 ((sortDocs_perm _ _).mem_iff.1 ha)).1
    have hbM : b ∈ matchedDocs store F :=
      hLperm.mem_iff.1 (List.mem_of_mem_filter hb)
    have hkey : Doc.get a s = Doc.get b s :=
      keyeq_of_not a b (hMgood a haM) (hMgood b hbM)
        ((docLeB_single s o b a).1 hba) ((docLeB_single s o a b).1 hab)
    exact pairwise_ne_inj (fun d => Doc.get d s) hdist haM hbM hkey
  have round : ∀ (c : Option String) (R : List Doc),
      ((c = none ∧ R = sortedMatched store F s o) ∨
        (∃ v : BVal, good (some v) ∧ c = some (enc v) ∧
          R = (sortedMatched store F s o).filter (beyondB s o v))) →
      CursorPaginator.paginate
          { cursor := c, limit := limit,
            args := { filter := F, sort := some [(s, o)] } } store =
        .ok (mkCursorResult s (applyLimit limit R)) := by
    intro c R hrep
    rcases hrep with ⟨rfl, rfl⟩ | ⟨v, hv, rfl, rfl⟩
    · have h0 : CursorPaginator.paginate
          { cursor := none, limit := limit,
            args := { filter := F, sort := some [(s, o)] } } store =
          .ok (mkCursorResult s (Model.find store F [(s, o)] 0 limit)) := rfl
      rw [h0]
      have hfind : Model.find store F [(s, o)] 0 limit =
          applyLimit limit (sortedMatched store F s o) := by
        unfold Model.find sortedMatched matchedDocs
        rw [List.drop_zero]
      rw [hfind]
    · simp only [CursorPaginator.paginate, Option.getD_some, List.head?_cons]
      rw [hbuild v hv]
      show Except.ok (mkCursorResult s (Model.find store
          (F.set s (if o = 1 then .gt v else .lt v)) [(s, o)] 0 limit)) = _
      have hfind : Model.find store
          (F.set s (if o = 1 then .gt v else .lt v)) [(s, o)] 0 limit =
          applyLimit limit
            ((sortedMatched store F s o).filter (beyondB s o v)) := by
        unfold Model.find
        rw [List.drop_zero,
          show store.filter
              (matchesFilter (F.set s (if o = 1 then .gt v else .lt v))) =
            (matchedDocs store F).filter
              (fun d => condMatches (if o = 1 then .gt v else .lt v)
                (Doc.get d s)) from filter_set_decompose store F s hFs _,
          sort_filter]
        congr 1
        apply List.filter_congr
        intro d hd
        rw [hclause v (Doc.get d s) hv (hLgood d hd)]
        rfl
      rw [hfind]
  intro fuel
  induction fuel with
  | zero =>
    intro c R hlen _
    exact absurd hlen (Nat.not_lt_zero _)
  | succ fuel ih =>
    intro c R hlen hrep
    simp only [paginateSeq]
    rw [round c R hrep]
    by_cases hne : R = []
    · subst hne
      rw [applyLimit_nil]
      rfl
    · obtain ⟨k, hk1, hkeq⟩ := applyLimit_eq_take limit R hne
      rw [hkeq]
      have hPne : R.take k ≠ [] := by
        intro hc
        rcases List.take_eq_nil_iff.1 hc with h | h
        · omega
        · exact hne h
      obtain ⟨lastd, hPlast⟩ : ∃ x, (R.take k).getLast? = some x := by
        cases h : (R.take k).getLast? with
        | none => exact absurd (List.getLast?_eq_none_iff.1 h) hPne
        | some x => exact ⟨x, rfl⟩
      have hlmemR : lastd ∈ R :=
        List.take_subset k R
          (List.mem_of_mem_getLast? (Option.mem_def.2 hPlast))
      have hlmemL : lastd ∈ sortedMatched store F s o := by
        rcases hrep with ⟨_, rfl⟩ | ⟨v, _, _, rfl⟩
        · exact hlmemR
        · exact List.mem_of_mem_filter hlmemR
      obtain ⟨v2, hv2⟩ := hsome (Doc.get lastd s) (hLgood lastd hlmemL)
      have hgv2 : good (some v2) := hv2 ▸ hLgood lastd hlmemL
      have hderiv2 : deriveNextCursor s (R.take k) = some (enc v2) :=
        hderive (R.take k) lastd v2 hPlast hv2 hgv2
      have hRstrict : R.Pairwise (fun a b => sLtB s o a b = true) := by
        rcases hrep with ⟨_, rfl⟩ | ⟨v, _, _, rfl⟩
        · exact hLstrict
        · exact List.Pairwise.sublist (List.filter_sublist _) hLstrict
      have hfun : (fun d => sLtB s o lastd d) = beyondB s o v2 := by
        funext d
        unfold sLtB beyondB
        rw [hv2]
      have hstep2 : R.filter (beyondB s o v2) = R.drop k := by
        rw [← hfun]
        exact filter_lt_take_drop (fun a b => sLtB s o a b)
          (fun a b h => sLtB_asymm h) R k lastd hk1 hRstrict hPlast
      have hstep1 : (sortedMatched store F s o).filter (beyondB s o v2) =
          R.filter (beyondB s o v2) := by
        rcases hrep with ⟨_, rfl⟩ | ⟨v, hv, _, rfl⟩
        · rfl
        · rw [List.filter_filter]
          apply List.filter_congr
          intro d _
          have hlf : beyondB s o v lastd = true := List.of_mem_filter hlmemR
          by_cases hbd : beyondB s o v2 d = true
          · have htr : beyondB s o v d = true := by
              unfold beyondB at hlf hbd ⊢
              rw [hv2] at hlf
              by_cases hdir : o = 1
              · rw [if_pos hdir] at hlf hbd ⊢
                exact tkLt_trans hlf hbd
              · rw [if_neg hdir] at hlf hbd ⊢
                exact tkLt_trans hbd hlf
            rw [hbd, htr]
            rfl
          · have hf : beyondB s o v2 d = false := Bool.not_eq_true _ ▸ hbd
            rw [hf]
            rfl
      have hlenR : 1 ≤ R.length := List.length_pos.2 hne
      have hih := ih (some (enc v2)) (R.drop k)
        (by rw [List.length_drop]; omega)
        (Or.inr ⟨v2, hgv2, rfl, (hstep1.trans hstep2).symm⟩)
      rw [show mkCursorResult s (R.take k) =
        { data := R.take k,
          meta := { nextCursor := some (deriveNextCursor s (R.take k)) } }
        from rfl, hderiv2]
      show (match paginateSeq store
          { filter := F, sort := some [(s, o)] } limit (some (enc v2)) fuel with
        | Except.error e => Except.error e
        | Except.ok (rest, fin) => Except.ok (R.take k ++ rest, fin)) =
          Except.ok (R, none)
      rw [hih]
      show Except.ok (R.take k ++ R.drop k, (none : Option String)) = _
      rw [List.take_append_drop]

/-! ### Instantiating the loop invariant for ObjectId and string fields -/

theorem oidString_ne_empty (n : Nat) : oidString n ≠ "" := by
  intro h
  have h24 := natToHexChars_length 24 n
  have hdata : natToHexChars 24 n = [] := congrArg String.data h
  rw [hdata] at h24
  simp at h24

theorem buildCursorFilter_oid (F : MongoFilter) (o : Int) (n : Nat)
    (h : n < 16 ^ 24) :
    buildCursorFilter F (some (oidString n)) "_id" o =
      .ok (F.set "_id"
        (if o = 1 then FieldCond.gt (.oid n) else FieldCond.lt (.oid n))) := by
  unfold buildCursorFilter
  dsimp only
  rw [if_neg (oidString_ne_empty n), if_pos rfl, parseObjectId_oidString n h]

theorem buildCursorFilter_str (F : MongoFilter) (s : String) (hs : s ≠ "_id")
    (o : Int) (t : String) (ht : t ≠ "") :
    buildCursorFilter F (some t) s o =
      .ok (F.set s
        (if o = 1 then FieldCond.gt (.str t) else FieldCond.lt (.str t))) := by
  unfold buildCursorFilter
  dsimp only
  rw [if_neg ht, if_neg hs]

theorem tkLt_same_rank (r : Nat) (a b : Int) (x : String) :
    tkLt (r, a, x) (r, b, x) = decide (a < b) := by
  rw [Bool.eq_iff_iff, tkLt_iff]
  simp only [decide_eq_true_eq]
  constructor
  · rintro (h | ⟨-, h | ⟨-, h⟩⟩)
    · exact absurd h (lt_irrefl _)
    · exact h
    · exact absurd (strLtB_irreflexive x ▸ h) Bool.false_ne_true
  · intro h
    exact Or.inr ⟨trivial, Or.inl h⟩

theorem tkLt_str_rank (r : Nat) (a : Int) (t u : String) :
    tkLt (r, a, t) (r, a, u) = strLtB t u := by
  rw [Bool.eq_iff_iff, tkLt_iff]
  simp only [decide_eq_true_eq]
  constructor
  · rintro (h | ⟨-, h | ⟨-, h⟩⟩)
    · exact absurd h (lt_irrefl _)
    · exact absurd h (lt_irrefl _)
    · exact h
  · intro h
    exact Or.inr ⟨trivial, Or.inr ⟨trivial, h⟩⟩

theorem condMatches_oid (o : Int) (n m : Nat) :
    condMatches
        (if o = 1 then FieldCond.gt (.oid n) else FieldCond.lt (.oid n))
        (some (.oid m)) =
      (if o = 1 then tkLt (skeyOf (some (.oid n))) (skeyOf (some (.oid m)))
       else tkLt (skeyOf (some (.oid m))) (skeyOf (some (.oid n)))) := by
  by_cases hdir : o = 1
  · rw [if_pos hdir, if_pos hdir]
    show (sameBracket (.oid m) (.oid n) && bvalLtB (.oid n) (.oid m)) =
      tkLt (8, (n : Int), "") (8, (m : Int), "")
    rw [tkLt_same_rank]
    show (true && decide (n < m)) = decide ((n : Int) < (m : Int))
    rw [Bool.true_and, decide_eq_decide]
    exact Int.ofNat_lt.symm
  · rw [if_neg hdir, if_neg hdir]
    show (sameBracket (.oid m) (.oid n) && bvalLtB (.oid m) (.oid n)) =
      tkLt (8, (m : Int), "") (8, (n : Int), "")
    rw [tkLt_same_rank]
    show (true && decide (m < n)) = decide ((m : Int) < (n : Int))
    rw [Bool.true_and, decide_eq_decide]
    exact Int.ofNat_lt.symm

theorem condMatches_str (o : Int) (t u : String) :
    condMatches
        (if o = 1 then FieldCond.gt (.str t) else FieldCond.lt (.str t))
        (some (.str u)) =
      (if o = 1 then tkLt (skeyOf (some (.str t))) (skeyOf (some (.str u)))
       else tkLt (skeyOf (some (.str u))) (skeyOf (some (.str t)))) := by
  by_cases hdir : o = 1
  · rw [if_pos hdir, if_pos hdir]
    show (sameBracket (.str u) (.str t) && bvalLtB (.str t) (.str u)) =
      tkLt (4, (0 : Int), t) (4, (0 : Int), u)
    rw [tkLt_str_rank]
    show (true && strLtB t u) = strLtB t u
    rw [Bool.true_and]
  · rw [if_neg hdir, if_neg hdir]
    show (sameBracket (.str u) (.str t) && bvalLtB (.str u) (.str t)) =
      tkLt (4, (0 : Int), u) (4, (0 : Int), t)
    rw [tkLt_str_rank]
    show (true && strLtB u t) = strLtB u t
    rw [Bool.true_and]

theorem deriveNextCursor_id (l : List Doc) (d : Doc)
    (hl : l.getLast? = some d) :
    deriveNextCursor "_id" l = some (jsStringOfOpt (Doc.get d "_id")) := by
  unfold deriveNextCursor
  rw [hl]
  dsimp only
  rw [if_pos rfl]

theorem deriveNextCursor_other (s : String) (hs : s ≠ "_id") (l : List Doc)
    (d : Doc) (v : BVal) (hl : l.getLast? = some d)
    (hv : Doc.get d s = some v) (hnd : ∀ dt : JsDate, v ≠ .date dt) :
    deriveNextCursor s l = some (jsStringOfBVal v) := by
  unfold deriveNextCursor
  rw [hl]
  dsimp only
  rw [if_neg hs, hv]
  cases v with
  | oid n => rfl
  | date dt => exact absurd rfl (hnd dt)
  | num x => rfl
  | str t => rfl

theorem isOidVal_elim {u : Option BVal} (h : isOidVal u = true) :
    ∃ n : Nat, n < 16 ^ 24 ∧ u = some (.oid n) := by
  match u with
  | some (.oid n) =>
    exact ⟨n, by simpa [isOidVal] using h, rfl⟩
  | none | some (.date _) | some (.num _) | some (.str _) =>
    simp [isOidVal] at h

theorem isStrVal_elim {u : Option BVal} (h : isStrVal u = true) :
    ∃ t : String, t ≠ "" ∧ u = some (.str t) := by
  match u with
  | some (.str t) =>
    exact ⟨t, by simpa [isStrVal] using h, rfl⟩
  | none | some (.date _) | some (.num _) | some (.oid _) =>
    simp [isStrVal] at h

/-! ### Claim theorems -/

/-- C1 (amended): for every finite collection whose matching documents have
pairwise-distinct sort-field values, with the caller's filter placing no
clause on the sort field, and with the sort field either `_id` (ObjectId
values) or holding nonempty string values, starting
`CursorPaginator.paginate()` with `cursor = null` and feeding back
`nextCursor` until it is `null` visits every document matching the filter
exactly once, in the declared sort order, with no gaps or repeats.  (As
stated over arbitrary field types the claim is false — see the
counterexample: number- and date-valued sort fields are compared against
the cursor string across BSON type brackets, so re-invocation misses
documents; an empty-string value makes the cursor falsy and restarts the
sequence; a caller filter clause on the sort field is overwritten.) -/
theorem C1_theorem (store : Model) (F : MongoFilter) (s : String) (o : Int)
    (limit : Int)
    (hFs : ∀ p ∈ F, p.1 ≠ s)
    (hdist : (matchedDocs store F).Pairwise
      (fun a b => Doc.get a s ≠ Doc.get b s))
    (hclass :
      (s = "_id" ∧ ∀ d ∈ store, matchesFilter F d = true →
        isOidVal (Doc.get d s) = true) ∨
      (s ≠ "_id" ∧ ∀ d ∈ store, matchesFilter F d = true →
        isStrVal (Doc.get d s) = true)) :
    cursorIterationSpec store F s o limit := by
  refine ⟨?_, sortDocs_perm _ _, sortDocs_sorted _ _⟩
  have hlen : (sortedMatched store F s o).length < store.length + 1 := by
    have h1 : (sortedMatched store F s o).length =
        (matchedDocs store F).length :=
      (sortDocs_perm _ _).length_eq
    have h2 : (matchedDocs store F).length ≤ store.length :=
      List.length_filter_le _ _
    omega
  rcases hclass with ⟨rfl, hstore⟩ | ⟨hneq, hstore⟩
  · refine paginateSeq_exhausts_aux store F "_id" o
      (fun u => isOidVal u = true) jsStringOfBVal
      ?_ ?_ ?_ ?_ ?_ hFs hstore hdist limit
      (store.length + 1) none (sortedMatched store F "_id" o) hlen
      (Or.inl ⟨rfl, rfl⟩)
    · intro v hv
      obtain ⟨n, hn, he⟩ := isOidVal_elim hv
      obtain rfl : v = .oid n := by injection he
      exact buildCursorFilter_oid F o n hn
    · intro v u hv hu
      obtain ⟨n, hn, he⟩ := isOidVal_elim hv
      obtain rfl : v = .oid n := by injection he
      obtain ⟨m, hm, rfl⟩ := isOidVal_elim hu
      exact condMatches_oid o n m
    · intro l d v hl hg hv
      obtain ⟨n, hn, he⟩ := isOidVal_elim hv
      obtain rfl : v = .oid n := by injection he
      rw [deriveNextCursor_id l d hl, hg]
      rfl
    · intro u w hu hw he
      obtain ⟨n, hn, rfl⟩ := isOidVal_elim hu
      obtain ⟨m, hm, rfl⟩ := isOidVal_elim hw
      have : (n : Int) = (m : Int) := by
        have := congrArg (fun t => t.2.1) he
        simpa [skeyOf] using this
      have : n = m := by exact_mod_cast this
      rw [this]
    · intro u hu
      obtain ⟨n, hn, rfl⟩ := isOidVal_elim hu
      exact ⟨.oid n, rfl⟩
  · refine paginateSeq_exhausts_aux store F s o
      (fun u => isStrVal u = true) jsStringOfBVal
      ?_ ?_ ?_ ?_ ?_ hFs hstore hdist limit
      (store.length + 1) none (sortedMatched store F s o) hlen
      (Or.inl ⟨rfl, rfl⟩)
    · intro v hv
      obtain ⟨t, ht, he⟩ := isStrVal_elim hv
      obtain rfl : v = .str t := by injection he
      exact buildCursorFilter_str F s hneq o t ht
    · intro v u hv hu
      obtain ⟨t, ht, he⟩ := isStrVal_elim hv
      obtain rfl : v = .str t := by injection he
      obtain ⟨r, hr, rfl⟩ := isStrVal_elim hu
      exact condMatches_str o t r
    · intro l d v hl hg hv
      obtain ⟨t, ht, he⟩ := isStrVal_elim hv
      obtain rfl : v = .str t := by injection he
      exact deriveNextCursor_other s hneq l d (.str t) hl hg (fun dt => by
        intro hc
        exact BVal.noConfusion hc)
    · intro u w hu hw he
      obtain ⟨t, ht, rfl⟩ := isStrVal_elim hu
      obtain ⟨r, hr, rfl⟩ := isStrVal_elim hw
      have : t = r := by
        have := congrArg (fun x => x.2.2) he
        simpa [skeyOf] using this
      rw [this]
    · intro u hu
      obtain ⟨t, ht, rfl⟩ := isStrVal_elim hu
      exact ⟨.str t, rfl⟩

/-- Witness for C1: three documents with distinct ObjectId `_id` values,
ascending `_id` sort, limit 2: the protocol visits all three in order and
terminates. -/
theorem C1_witness :
    cursorIterationSpec
      [[("_id", BVal.oid 2)], [("_id", BVal.oid 1)], [("_id", BVal.oid 3)]]
      [] "_id" 1 2 :=
  C1_theorem _ _ _ _ _ (by decide) (by decide) (Or.inl ⟨rfl, by decide⟩)

/-- Counterexample to C1 as stated (arbitrary sort-field types): (1) with a
number-valued sort field and distinct values 1 and 2, limit 1, the protocol
terminates after visiting only the first document — the cursor string "1"
is compared against number values across BSON type brackets and matches
nothing, so document 2 is never visited; (2) with a string-valued sort
field containing the empty string, the derived cursor is falsy, every
re-invocation restarts from the top, and the protocol repeats the first
document without terminating; (3) with a caller filter clause on the sort
field, the clause is overwritten by the range clause on re-invocation, and
a document not matching the filter is visited. -/
theorem C1_counterexample :
    (paginateSeq [[("n", BVal.num 1)], [("n", BVal.num 2)]]
        { filter := [], sort := some [("n", 1)] } 1 none 3 =
      .ok ([[("n", BVal.num 1)]], none)) ∧
    (matchedDocs [[("n", BVal.num 1)], [("n", BVal.num 2)]] [] =
      [[("n", BVal.num 1)], [("n", BVal.num 2)]]) ∧
    ([("n", BVal.num 2)] ∉ [[("n", BVal.num 1)]]) ∧
    (paginateSeq [[("s", BVal.str "")], [("s", BVal.str "a")]]
        { filter := [], sort := some [("s", 1)] } 1 none 3 =
      .ok ([[("s", BVal.str "")], [("s", BVal.str "")], [("s", BVal.str "")]],
        some "")) ∧
    (paginateSeq
        [[("s", BVal.str "a")], [("s", BVal.str "b")], [("s", BVal.str "d")]]
        { filter := [("s", FieldCond.lt (BVal.str "c"))],
          sort := some [("s", 1)] } 1 none 4 =
      .ok ([[("s", BVal.str "a")], [("s", BVal.str "b")],
        [("s", BVal.str "d")]], none)) ∧
    (matchesFilter [("s", FieldCond.lt (BVal.str "c"))]
      [("s", BVal.str "d")] = false) :=
  ⟨by decide, rfl, by decide, by decide, by decide, rfl⟩

/-- A successful `CursorPaginator.paginate` call is the find on the built
filter, packaged with the derived next cursor. -/
theorem cursorPaginate_ok_shape (p : CursorPaginator) (store : Model)
    (r : IPaginationResult) (h : CursorPaginator.paginate p store = .ok r) :
    ∃ flt, buildCursorFilter p.args.filter p.cursor
        (CursorPaginator.sortFieldOf p) (CursorPaginator.sortOrderOf p) =
          .ok flt ∧
      r = mkCursorResult (CursorPaginator.sortFieldOf p)
        (Model.find store flt (p.args.sort.getD [("_id", 1)]) 0 p.limit) := by
  simp only [CursorPaginator.paginate] at h
  cases hb : buildCursorFilter p.args.filter p.cursor
      (CursorPaginator.sortFieldOf p) (CursorPaginator.sortOrderOf p) with
  | error e =>
    rw [show buildCursorFilter p.args.filter p.cursor
        ((p.args.sort.getD [("_id", 1)]).head?.getD ("undefined", 0)).1
        ((p.args.sort.getD [("_id", 1)]).head?.getD ("undefined", 0)).2 =
      .error e from hb] at h
    exact absurd h (by simp)
  | ok flt =>
    rw [show buildCursorFilter p.args.filter p.cursor
        ((p.args.sort.getD [("_id", 1)]).head?.getD ("undefined", 0)).1
        ((p.args.sort.getD [("_id", 1)]).head?.getD ("undefined", 0)).2 =
      .ok flt from hb] at h
    refine ⟨flt, rfl, ?_⟩
    have hr := (Except.ok.inj h).symm
    rw [hr]
    rfl

theorem deriveNextCursor_eq_none_iff (s : String) (l : List Doc) :
    deriveNextCursor s l = none ↔ l = [] := by
  cases l with
  | nil => simp [deriveNextCursor]
  | cons a t =>
    constructor
    · intro h
      unfold deriveNextCursor at h
      cases hgl : (a :: t).getLast? with
      | none => exact absurd (List.getLast?_eq_none_iff.1 hgl) (by simp)
      | some x =>
        rw [hgl] at h
        dsimp only at h
        by_cases hs : s = "_id"
        · rw [if_pos hs] at h
          exact absurd h (by simp)
        · rw [if_neg hs] at h
          rcases hv : Doc.get x s with _ | v
          · rw [hv] at h
            exact absurd h (by simp)
          · cases v <;> rw [hv] at h <;> exact absurd h (by simp)
    · intro h
      exact absurd h (by simp)

theorem deriveNextCursor_date (s : String) (hs : s ≠ "_id") (l : List Doc)
    (d : Doc) (dt : JsDate) (hl : l.getLast? = some d)
    (hv : Doc.get d s = some (.date dt)) :
    deriveNextCursor s l = some (toISOString dt) := by
  unfold deriveNextCursor
  rw [hl]
  dsimp only
  rw [if_neg hs, hv]

/-- C2 (amended): for every caller filter and nonempty cursor, the query
filter is the caller's filter (cloned — the embedding is pure, so the
original value is untouched) with the range clause assigned at the sort
field: strictly-greater-than for ascending, strictly-less-than for
descending; for sort field `_id` the cursor is first parsed into the
native ObjectId representation; the empty-string cursor (and `null`) adds
no clause; an absent sort spec behaves exactly as `{_id: 1}`.  (As stated
the claim fails for the empty-string cursor and for filters that already
constrain the sort field — see the counterexample.) -/
theorem C2_theorem (f : MongoFilter) (s : String) (o : Int) (c : String)
    (n : Nat) (lim : Int) (cc : Option String) (st : Model)
    (hc : c ≠ "") : cursorFilterSpec f s o c n lim cc st := by
  refine ⟨?_, ?_, ?_, rfl, rfl⟩
  · intro hs hp
    subst hs
    unfold buildCursorFilter
    dsimp only
    rw [if_neg hc, if_pos rfl, hp]
  · intro hs
    unfold buildCursorFilter
    dsimp only
    rw [if_neg hc, if_neg hs]
  · unfold buildCursorFilter
    dsimp only
    rw [if_pos rfl]

/-- Witness for C2 at a concrete nonempty cursor on a non-`_id` field. -/
theorem C2_witness :
    ("q" ≠ "") ∧ cursorFilterSpec [] "n" 1 "q" 0 5 none [] :=
  ⟨by decide, C2_theorem [] "n" 1 "q" 0 5 none [] (by decide)⟩

/-- Counterexample to C2 as stated: (1) the empty-string cursor is present
yet adds no range clause (the built filter stays `[]`, while "filter plus
clause" would be nonempty); (2) when the caller's filter already has a
clause on the sort field, the range clause replaces it rather than being
added, so the built predicate accepts a document the caller's filter
rejects. -/
theorem C2_counterexample :
    (buildCursorFilter [] (some "") "a" 1 = .ok []) ∧
    (MongoFilter.set [] "a" (FieldCond.gt (BVal.str "")) =
      [("a", FieldCond.gt (BVal.str ""))]) ∧
    (buildCursorFilter [("a", FieldCond.gt (BVal.num 5))] (some "c") "a" 1 =
      .ok [("a", FieldCond.gt (BVal.str "c"))]) ∧
    (matchesFilter [("a", FieldCond.gt (BVal.str "c"))]
      [("a", BVal.str "d")] = true) ∧
    (matchesFilter [("a", FieldCond.gt (BVal.num 5))]
      [("a", BVal.str "d")] = false) := by
  decide

/-- `nextCursorSpec` holds of every result of the shape `paginate`
produces. -/
theorem nextCursorSpec_of_mk (p : CursorPaginator) (items : List Doc) :
    nextCursorSpec p
      (mkCursorResult (CursorPaginator.sortFieldOf p) items) := by
  constructor
  · constructor
    · intro hnc
      exact (deriveNextCursor_eq_none_iff _ _).1 (Option.some.inj hnc)
    · intro hd
      have hd2 : items = [] := hd
      show some (deriveNextCursor (CursorPaginator.sortFieldOf p) items) =
        some none
      rw [(deriveNextCursor_eq_none_iff _ _).2 hd2]
  · intro lastd hlast
    have hlast2 : items.getLast? = some lastd := hlast
    refine ⟨?_, ?_, ?_⟩
    · intro hs
      show some (deriveNextCursor (CursorPaginator.sortFieldOf p) items) = _
      rw [hs, deriveNextCursor_id items lastd hlast2]
    · intro dt hs hv
      refine ⟨?_, fun hvalid => parseISO_toISOString dt hvalid⟩
      show some (deriveNextCursor (CursorPaginator.sortFieldOf p) items) = _
      rw [deriveNextCursor_date _ hs items lastd dt hlast2 hv]
    · intro v hs hv hnd
      show some (deriveNextCursor (CursorPaginator.sortFieldOf p) items) = _
      rw [deriveNextCursor_other _ hs items lastd v hlast2 hv hnd]

/-- C3: for every successful `CursorPaginator.paginate` call, `nextCursor`
is null exactly when `data` is empty, and otherwise derives from the last
row's sort-field value: `String(_id)` when the sort field is `_id`, the
ISO-8601 rendering (parseable back to the same instant) when the value is
a timestamp, and the plain string rendering otherwise. -/
theorem C3_theorem (p : CursorPaginator) (store : Model)
    (r : IPaginationResult)
    (h : CursorPaginator.paginate p store = .ok r) : nextCursorSpec p r := by
  obtain ⟨flt, hb, hr⟩ := cursorPaginate_ok_shape p store r h
  subst hr
  exact nextCursorSpec_of_mk p _

/-- Witness for C3: a descending sort on a timestamp field; the call is
evaluated concretely and the derived cursor is the ISO-8601 rendering of
the last returned row's timestamp. -/
theorem C3_witness :
    (CursorPaginator.paginate dateCursorPaginator dateStore =
      .ok dateCursorResult) ∧
    nextCursorSpec dateCursorPaginator dateCursorResult :=
  ⟨by decide, C3_theorem dateCursorPaginator dateStore dateCursorResult
    (by decide)⟩

/-- C4: once a result carries `nextCursor = null`, its `data` is empty, and
invoking `paginate()` again in that same state returns 0 rows and
`nextCursor = null` — the state is exhausted and not restartable. -/
theorem C4_theorem (p : CursorPaginator) (store : Model)
    (r : IPaginationResult)
    (h : CursorPaginator.paginate p store = .ok r)
    (hnull : r.meta.nextCursor = some none) :
    r.data = [] ∧
    CursorPaginator.paginate p store =
      .ok { data := [], meta := { nextCursor := some none } } := by
  obtain ⟨flt, hb, hr⟩ := cursorPaginate_ok_shape p store r h
  subst hr
  have hempty : Model.find store flt (p.args.sort.getD [("_id", 1)]) 0
      p.limit = [] :=
    (deriveNextCursor_eq_none_iff _ _).1 (Option.some.inj hnull)
  constructor
  · exact hempty
  · rw [h]
    show Except.ok (mkCursorResult (CursorPaginator.sortFieldOf p)
      (Model.find store flt (p.args.sort.getD [("_id", 1)]) 0 p.limit)) = _
    rw [hempty]
    rfl

/-- Witness for C4: an empty collection; the first call already yields the
exhausted state. -/
theorem C4_witness :
    (({ data := [], meta := { nextCursor := some none } } :
        IPaginationResult).data = []) ∧
    CursorPaginator.paginate
        { cursor := none, limit := 5,
          args := { filter := [], sort := some [("_id", 1)] } } [] =
      .ok { data := [], meta := { nextCursor := some none } } :=
  C4_theorem
    { cursor := none, limit := 5,
      args := { filter := [], sort := some [("_id", 1)] } }
    []
    { data := [], meta := { nextCursor := some none } }
    (by decide) (by decide)

theorem buildCursorFilter_bad (f : MongoFilter) (c : String) (o : Int)
    (hc : c ≠ "") (hp : parseObjectId c = none) :
    buildCursorFilter f (some c) "_id" o =
      .error (.bsonInvalidObjectId c) := by
  unfold buildCursorFilter
  dsimp only
  rw [if_neg hc, if_pos rfl, hp]

/-- C5 (amended): for every nonempty cursor string that is not a valid
24-hex-digit ObjectId, `CursorPaginator.paginate` on an `_id` sort fails
before the query runs (the failure is the same for every store), but with
the `BSONError` thrown by `new Types.ObjectId(cursor)`, which is not an
instance of the library's own error class — not with the paginator's
`InvalidArgument` error the spec promises.  (The empty-string cursor does
not fail at all — see the counterexample.) -/
theorem C5_theorem (store : Model) (f : MongoFilter) (c : String)
    (lim o : Int) (hc : c ≠ "") (hp : parseObjectId c = none) :
    CursorPaginator.paginate
        { cursor := some c, limit := lim,
          args := { filter := f, sort := some [("_id", o)] } } store =
      .error (.bsonInvalidObjectId c) ∧
    JsError.isMongoosePaginatorError (.bsonInvalidObjectId c) = false := by
  refine ⟨?_, rfl⟩
  unfold CursorPaginator.paginate
  simp only [Option.getD_some, List.head?_cons]
  rw [buildCursorFilter_bad f c o hc hp]

/-- Witness for C5: the malformed cursor `"zzz"` on a one-element filterless
query. -/
theorem C5_witness :
    ("zzz" ≠ "" ∧ parseObjectId "zzz" = none) ∧
    (CursorPaginator.paginate
        { cursor := some "zzz", limit := 5,
          args := { filter := [], sort := some [("_id", 1)] } } [] =
      .error (.bsonInvalidObjectId "zzz") ∧
     JsError.isMongoosePaginatorError (.bsonInvalidObjectId "zzz") = false) :=
  ⟨⟨by decide, by decide⟩,
   C5_theorem [] [] "zzz" 5 1 (by decide) (by decide)⟩

/-- Counterexample to C5 as stated: the malformed cursor `"abc"` makes the
call reject with the BSON ObjectId error, which is not an instance of the
paginator's own error class (there is no `InvalidArgument` raised by the
library); and the malformed-but-empty cursor string is falsy, so it raises
nothing at all and the query silently runs unconstrained. -/
theorem C5_counterexample :
    CursorPaginator.paginate
        { cursor := some "abc", limit := 5,
          args := { filter := [], sort := some [("_id", 1)] } }
        [[("_id", BVal.oid 1)]] =
      .error (.bsonInvalidObjectId "abc") ∧
    JsError.isMongoosePaginatorError (.bsonInvalidObjectId "abc") = false ∧
    CursorPaginator.paginate
        { cursor := some "", limit := 5,
          args := { filter := [], sort := some [("_id", 1)] } }
        [[("_id", BVal.oid 1)]] =
      .ok { data := [[("_id", BVal.oid 1)]],
            meta := { nextCursor :=
                        some (some "000000000000000000000001") } } :=
  ⟨by decide, by decide, by decide⟩

/-- C6 (amended): neither strategy validates the limit: for every
non-positive limit, both `PageNumberPaginator.paginate` and
`CursorPaginator.paginate` (from the null-cursor state) succeed rather
than failing with a constraint-violation error — the claimed fail-fast
check does not exist in the code.  (With `limit = 0` the page-number
metadata contains the JavaScript `Infinity`/`NaN` arithmetic the spec
wanted to rule out — see the counterexample.) -/
theorem C6_theorem (page limit : Int) (args : IPaginateArgs) (store : Model)
    (h : limit ≤ 0) :
    (∃ r, PageNumberPaginator.paginate
        { page := page, limit := limit, args := args } store = .ok r) ∧
    ∃ r2, CursorPaginator.paginate
        { cursor := none, limit := limit, args := args } store = .ok r2 :=
  ⟨⟨_, rfl⟩, ⟨_, rfl⟩⟩

/-- Witness for C6 at `limit = 0`. -/
theorem C6_witness :
    (0:Int) ≤ 0 ∧
    ((∃ r, PageNumberPaginator.paginate
        { page := 1, limit := 0, args := { filter := [], sort := none } }
        [] = .ok r) ∧
     ∃ r2, CursorPaginator.paginate
        { cursor := none, limit := 0,
          args := { filter := [], sort := none } } [] = .ok r2) :=
  ⟨by decide, C6_theorem 1 0 { filter := [], sort := none } [] (by decide)⟩

/-- Counterexample to C6 as stated: with `limit = 0` the page-number
strategy answers `.ok` with `lastPage = Infinity` (the undefined
`Math.ceil(total / 0)` arithmetic) and `perPage = 0`, and the cursor
strategy answers `.ok` and returns every row (`limit(0)` means "no limit"
to MongoDB) — neither fails with an `InvalidArgument` error. -/
theorem C6_counterexample :
    PageNumberPaginator.paginate
        { page := 1, limit := 0,
          args := { filter := [], sort := some [("n", 1)] } }
        [[("n", BVal.num 1)], [("n", BVal.num 2)]] =
      .ok { data := [[("n", BVal.num 1)], [("n", BVal.num 2)]],
            meta := { total := some 2,
                      lastPage := some JSNum.posInf,
                      currentPage := some (JSNum.int 1),
                      perPage := some 0,
                      prev := some none,
                      next := some (some (JSNum.int 2)) } } ∧
    CursorPaginator.paginate
        { cursor := none, limit := 0,
          args := { filter := [], sort := some [("_id", 1)] } }
        [[("_id", BVal.oid 1)]] =
      .ok { data := [[("_id", BVal.oid 1)]],
            meta := { nextCursor :=
                        some (some "000000000000000000000001") } } :=
  ⟨by decide, by decide⟩

/-- C7: the offset-strategy constructor succeeds exactly when the limit is
nonzero and divides the offset (in particular `limit = 0` is rejected as a
constraint violation, not a divide-by-zero), and on success `paginate()`
reports `currentPage = floor(offset / limit) + 1`. -/
theorem C7_theorem (offset limit : Int) (args : IPaginateArgs)
    (store : Model) : offsetSpec offset limit args store := by
  have hkey : (limit = 0 ∨ offset % limit ≠ 0) ↔
      ¬(limit ≠ 0 ∧ limit ∣ offset) := by
    constructor
    · rintro (h0 | hm) ⟨hne, hdvd⟩
      · exact hne h0
      · exact hm (Int.emod_eq_zero_of_dvd hdvd)
    · intro hn
      by_cases h0 : limit = 0
      · exact Or.inl h0
      · exact Or.inr fun hm => hn ⟨h0, Int.dvd_of_emod_eq_zero hm⟩
  refine ⟨?_, ?_, ?_⟩
  · by_cases hcond : limit = 0 ∨ offset % limit ≠ 0
    · unfold OffsetPaginator.make
      rw [if_pos hcond]
      exact iff_of_false (fun hcon => Except.noConfusion hcon)
        (hkey.1 hcond)
    · unfold OffsetPaginator.make
      rw [if_neg hcond]
      push_neg at hcond
      exact iff_of_true rfl ⟨hcond.1, Int.dvd_of_emod_eq_zero hcond.2⟩
  · intro hn
    unfold OffsetPaginator.make
    rw [if_pos (hkey.2 hn)]
  · rintro ⟨hz, hdvd⟩
    refine ⟨_, rfl, ?_⟩
    show some ((jsFloorDiv offset limit).addOne) =
      some (JSNum.int (Int.fdiv offset limit + 1))
    unfold jsFloorDiv
    rw [if_neg hz]
    rfl

/-- C8: for every page ≥ 1, limit ≥ 1 and store, the page-number strategy
succeeds, applies `skip = (page-1)*limit` to the query, and reports
`total`, `lastPage = ceil(total/limit)` (0 when total is 0, witnessed by
the two ceiling bounds), `currentPage = page`, `perPage = limit`,
`prev = null` iff `page ≤ 1` (else `page-1`) and `next = null` iff
`page ≥ lastPage` (else `page+1`). -/
theorem C8_theorem (page limit : Int) (args : IPaginateArgs) (store : Model)
    (hp : 1 ≤ page) (hl : 1 ≤ limit) : pageNumberSpec page limit args store := by
  have hLne : limit ≠ 0 := by omega
  have hL0 : (0:Int) < limit := by omega
  unfold pageNumberSpec
  set T : Int := (Model.countDocuments store args.filter : Int) with hTdef
  have hfd : Int.fdiv (-T) limit = (-T) / limit :=
    Int.fdiv_eq_ediv _ (le_of_lt hL0)
  have hdm : limit * ((-T) / limit) + (-T) % limit = -T :=
    Int.ediv_add_emod _ _
  have hm0 : 0 ≤ (-T) % limit := Int.emod_nonneg _ hLne
  have hm1 : (-T) % limit < limit := Int.emod_lt_of_pos _ hL0
  refine ⟨_, -(Int.fdiv (-T) limit), rfl, rfl, rfl, ?_, ?_, ?_, ?_, rfl,
    rfl, ?_, ?_, ?_, ?_⟩
  · show some (jsCeilDiv T limit) = some (JSNum.int (-(Int.fdiv (-T) limit)))
    unfold jsCeilDiv
    rw [if_neg hLne]
  · intro hc
    rw [hTdef, hc]
    simp [Int.zero_fdiv]
  · rw [hfd]
    have e1 : (-((-T) / limit) - 1) * limit =
        -(limit * ((-T) / limit)) - limit := by ring
    rw [e1]
    linarith [hdm, hm0, hm1]
  · rw [hfd]
    have e2 : -((-T) / limit) * limit = -(limit * ((-T) / limit)) := by ring
    rw [e2]
    linarith [hdm, hm0]
  · show some (if JSNum.ltb (.int 1) (.int page) then
        some ((JSNum.int page).subOne) else none) = some none ↔ page ≤ 1
    simp only [JSNum.ltb]
    by_cases h1 : 1 < page
    · rw [if_pos (decide_eq_true h1)]
      exact iff_of_false (by simp) (by omega)
    · rw [if_neg (by simp only [decide_eq_true_eq]; exact h1)]
      exact iff_of_true rfl (by omega)
  · intro h1
    show some (if JSNum.ltb (.int 1) (.int page) then
        some ((JSNum.int page).subOne) else none) =
      some (some (JSNum.int (page - 1)))
    simp only [JSNum.ltb]
    rw [if_pos (decide_eq_true h1)]
    rfl
  · have hlp : jsCeilDiv T limit = .int (-(Int.fdiv (-T) limit)) := by
      unfold jsCeilDiv
      rw [if_neg hLne]
    show some (if JSNum.ltb (.int page) (jsCeilDiv T limit) then
        some ((JSNum.int page).addOne) else none) = some none ↔
      -(Int.fdiv (-T) limit) ≤ page
    rw [hlp]
    simp only [JSNum.ltb]
    by_cases h2 : page < -(Int.fdiv (-T) limit)
    · rw [if_pos (decide_eq_true h2)]
      exact iff_of_false (by simp) (by omega)
    · rw [if_neg (by simp only [decide_eq_true_eq]; exact h2)]
      exact iff_of_true rfl (by omega)
  · intro h2
    have hlp : jsCeilDiv T limit = .int (-(Int.fdiv (-T) limit)) := by
      unfold jsCeilDiv
      rw [if_neg hLne]
    show some (if JSNum.ltb (.int page) (jsCeilDiv T limit) then
        some ((JSNum.int page).addOne) else none) =
      some (some (JSNum.int (page + 1)))
    rw [hlp]
    simp only [JSNum.ltb]
    rw [if_pos (decide_eq_true h2)]
    rfl

/-- Witness for C8: page 2, limit 2 over five numbered documents — the
returned slice is rows 3 and 4 and the metadata matches the spec. -/
theorem C8_witness :
    ((1:Int) ≤ 2 ∧ (1:Int) ≤ 2) ∧
    pageNumberSpec 2 2 { filter := [], sort := some [("n", 1)] }
      [[("n", BVal.num 1)], [("n", BVal.num 2)], [("n", BVal.num 3)],
       [("n", BVal.num 4)], [("n", BVal.num 5)]] :=
  ⟨⟨by decide, by decide⟩,
   C8_theorem 2 2 { filter := [], sort := some [("n", 1)] }
     [[("n", BVal.num 1)], [("n", BVal.num 2)], [("n", BVal.num 3)],
      [("n", BVal.num 4)], [("n", BVal.num 5)]]
     (by decide) (by decide)⟩

/-- C9: `setOffset` and `setLimit` are plain field assignments with no
re-validation, so a validly constructed `OffsetPaginator` (offset 3,
limit 3) can be moved to a state violating the multiple-of-limit invariant
(offset 5, or limit 0); `paginate()` still succeeds there, computing
`currentPage` from the misaligned values (2 from floor(5/3)+1, and the
JavaScript `Infinity` when the limit was zeroed). -/
theorem C9_theorem :
    (∀ (p : OffsetPaginator) (x : Int),
      OffsetPaginator.setOffset p x = { p with offset := x }) ∧
    (∀ (p : OffsetPaginator) (x : Int),
      OffsetPaginator.setLimit p x = { p with limit := x }) ∧
    OffsetPaginator.make 3 3 { filter := [], sort := some [] } =
      .ok { offset := 3, limit := 3,
            args := { filter := [], sort := some [] } } ∧
    ((3:Int) % 3 = 0 ∧ (5:Int) % 3 ≠ 0) ∧
    (∃ r, OffsetPaginator.paginate
        (OffsetPaginator.setOffset
          { offset := 3, limit := 3,
            args := { filter := [], sort := some [] } } 5) [] = .ok r ∧
      r.meta.currentPage = some (JSNum.int 2)) ∧
    (∃ r, OffsetPaginator.paginate
        (OffsetPaginator.setLimit
          { offset := 3, limit := 3,
            args := { filter := [], sort := some [] } } 0) [] = .ok r ∧
      r.meta.currentPage = some JSNum.posInf) := by
  refine ⟨fun p x => rfl, fun p x => rfl, by decide, by decide,
    ⟨_, rfl, ?_⟩, ⟨_, rfl, ?_⟩⟩
  · decide
  · decide

/-- C10: `paginate()` on the base class always rejects with the library's
own `MongoosePaginatorError('Method not implemented')`. -/
theorem C10_theorem (p : BasePaginator) (store : Model) :
    BasePaginator.paginate p store =
      .error (.mongoosePaginatorError "Method not implemented") ∧
    JsError.isMongoosePaginatorError
      (.mongoosePaginatorError "Method not implemented") = true :=
  ⟨rfl, rfl⟩
